import Mathlib

/-!
Verification of the stablecoins-optimizer core.

Shallow embedding of the repository's accrual arithmetic
(`src/utils/morpho_utils.py`, `src/utils/constants.py`), the leverage
sizing formula (`src/utils/aave_utils.py`, `src/utils/llama_utils.py`)
and the enhanced backtest simulator (`src/utils/aave_utils.py`,
`backtest_enhanced_strategy`), together with theorems settling the
frozen specification claims.

Conventions used throughout:
* Python arbitrary-precision integers holding non-negative protocol
  quantities are modelled as `ℕ`; Python floor division `//` on
  non-negative integers coincides with `Nat.div`.
* Python floats appearing in the backtest are modelled as exact
  rationals; a float cell that can hold `NaN` is modelled as
  `Option ℚ` with `none` for `NaN` (every comparison against `NaN`
  is false, and `NaN` propagates through arithmetic).
-/

/-! ## Constants (`src/utils/constants.py`) -/

/-- Constant `WAD = pow10(18)` from `src/utils/constants.py`. -/
def WAD : ℕ := 10 ^ 18

/-- Constant `SECONDS_PER_YEAR = 365 * 24 * 3600` from `src/utils/constants.py`. -/
def SECONDS_PER_YEAR : ℕ := 365 * 24 * 3600

/-! ## Fixed-point helpers (`src/utils/morpho_utils.py`) -/

/-- Function `w_taylor_compounded(rate, time)` from `src/utils/morpho_utils.py`
lines 142-145: `x = (rate * time) // SECONDS_PER_YEAR;
return WAD + x + (x * x) // (2 * WAD)`. -/
def w_taylor_compounded (rate time : ℕ) : ℕ :=
  let x := rate * time / SECONDS_PER_YEAR
  WAD + x + x * x / (2 * WAD)

/-- Function `w_mul_down(a, b) = (a * b) // WAD` from `src/utils/morpho_utils.py`. -/
def w_mul_down (a b : ℕ) : ℕ := a * b / WAD

/-- Function `to_assets_up(shares, total_assets, total_shares)` from
`src/utils/morpho_utils.py` lines 180-182:
`(shares * total_assets + total_shares - 1) // total_shares if total_shares != 0 else shares`. -/
def to_assets_up (shares total_assets total_shares : ℕ) : ℕ :=
  if total_shares ≠ 0 then (shares * total_assets + total_shares - 1) / total_shares
  else shares

/-- Function `to_shares_down(assets, total_assets, total_shares)` from
`src/utils/morpho_utils.py` lines 184-186:
`(assets * total_shares) // total_assets if total_assets != 0 else assets`. -/
def to_shares_down (assets total_assets total_shares : ℕ) : ℕ :=
  if total_assets ≠ 0 then assets * total_shares / total_assets
  else assets

/-- Dataclass `MarketState` from `src/utils/morpho_utils.py` lines 33-40. -/
structure MarketState where
  total_supply_assets : ℕ
  total_supply_shares : ℕ
  total_borrow_assets : ℕ
  total_borrow_shares : ℕ
  last_update : ℕ
  fee : ℕ
  deriving DecidableEq, Repr

/-- Function `accrue_interests(last_block_timestamp, market_state, borrow_rate)` from
`src/utils/morpho_utils.py` lines 147-178.  The Python `elapsed` is an
integer difference; the code returns the state unchanged when it is zero,
accrues when `total_borrow_assets != 0`, and otherwise falls through to
`return market_state` unchanged.  Callers pass block timestamps not less
than `last_update`; `Int.toNat` models the non-negative elapsed time used
in the interest term. -/
def accrue_interests (last_block_timestamp : ℕ) (ms : MarketState) (borrow_rate : ℕ) :
    MarketState :=
  let elapsed : ℤ := (last_block_timestamp : ℤ) - (ms.last_update : ℤ)
  if elapsed = 0 then ms
  else if ms.total_borrow_assets ≠ 0 then
    let interest := w_mul_down ms.total_borrow_assets
      (w_taylor_compounded borrow_rate elapsed.toNat)
    let new_total_supply := ms.total_supply_assets + interest
    let new_total_borrow := ms.total_borrow_assets + interest
    let new_supply_shares :=
      if ms.fee ≠ 0 then
        let fee_amount := w_mul_down interest ms.fee
        ms.total_supply_shares +
          to_shares_down fee_amount (new_total_supply - fee_amount) ms.total_supply_shares
      else ms.total_supply_shares
    { total_supply_assets := new_total_supply
      total_supply_shares := new_supply_shares
      total_borrow_assets := new_total_borrow
      total_borrow_shares := ms.total_borrow_shares
      last_update := last_block_timestamp
      fee := ms.fee }
  else ms

/-! ## Spec-side virtual-offset conversions

The specification describes share/asset conversions built on virtual
offsets (`VIRTUAL_SHARES = 10^6`, `VIRTUAL_ASSETS = 1`).  The repository
implements only the offset-free `to_shares_down`/`to_assets_up` above;
the definitions below transcribe the spec's formulas for comparison, and
stand in for the `toAssetsDown`/`toSharesUp` functions the spec names
but the source does not contain. -/

/-- Virtual share offset named by the spec. -/
def VIRTUAL_SHARES : ℕ := 10 ^ 6

/-- Virtual asset offset named by the spec. -/
def VIRTUAL_ASSETS : ℕ := 1

/-- The spec's wording of `toSharesDown`: assets times offset totals, rounding down. -/
def toSharesDownSpec (assets total_assets total_shares : ℕ) : ℕ :=
  assets * (total_shares + VIRTUAL_SHARES) / (total_assets + VIRTUAL_ASSETS)

/-- Modelled from the spec: `toAssetsDown` (absent from the source), the
virtual-offset conversion from shares to assets rounding down. -/
def toAssetsDownSpec (shares total_assets total_shares : ℕ) : ℕ :=
  shares * (total_assets + VIRTUAL_ASSETS) / (total_shares + VIRTUAL_SHARES)

/-- Modelled from the spec: `toSharesUp` (absent from the source), the
virtual-offset conversion from assets to shares rounding up. -/
def toSharesUpSpec (assets total_assets total_shares : ℕ) : ℕ :=
  (assets * (total_shares + VIRTUAL_SHARES) + (total_assets + VIRTUAL_ASSETS) - 1) /
    (total_assets + VIRTUAL_ASSETS)

/-- The spec's wording of `toAssetsUp`: shares times offset totals, rounding up. -/
def toAssetsUpSpec (shares total_assets total_shares : ℕ) : ℕ :=
  (shares * (total_assets + VIRTUAL_ASSETS) + (total_shares + VIRTUAL_SHARES) - 1) /
    (total_shares + VIRTUAL_SHARES)

/-- The 3-term WAD Taylor formula stated by the spec for
`taylorCompounded` (refinement comparison definition, written from the
spec's words `x = rate·elapsed; x + x²/(2·WAD) + x³/(3·WAD²)`). -/
def taylorCompoundedSpec (rate elapsed : ℕ) : ℕ :=
  let x := rate * elapsed
  x + x * x / (2 * WAD) + x * x * x / (3 * WAD ^ 2)

/-! ## Leverage sizing (`src/utils/aave_utils.py` lines 249-251,
`src/utils/llama_utils.py` lines 91-93)

`number_of_loops = math.ceil(math.log(stop_condition) / math.log(LTV))`
and `total_collateral = initial_collateral * ((1 - LTV**(number_of_loops
+ 1)) / (1 - LTV))`.  Python float arithmetic is modelled by exact real
arithmetic. -/

/-- The loop count computed by both backtests. -/
noncomputable def number_of_loops (LTV stop_condition : ℝ) : ℤ :=
  ⌈Real.log stop_condition / Real.log LTV⌉

/-- The total collateral computed by both backtests. -/
noncomputable def total_collateral_calc (initial_collateral LTV stop_condition : ℝ) : ℝ :=
  initial_collateral *
    ((1 - LTV ^ ((number_of_loops LTV stop_condition).toNat + 1)) / (1 - LTV))

/-! ## Backtest simulator embedding
(`backtest_enhanced_strategy`, `src/utils/aave_utils.py` lines 200-444)

Python floats are modelled as `PFloat := Option ℚ` (`none` = `NaN`);
asset cells of the pandas object columns are modelled by `PyAsset`,
distinguishing Python `None` from pandas `NaN` because the code's
`is not None` checks treat them differently.  The loop-count and
leverage scalars (lines 249-251, float logarithms modelled over `ℝ` by
`number_of_loops`/`total_collateral_calc` above) enter the simulator as
parameters. -/

/-- Model of a Python float cell: `none` is `NaN`. -/
abbrev PFloat := Option ℚ

/-- Rational addition by the cross-multiplication formula.  The library
addition on `ℚ` is `@[irreducible]`; this reducible clone lets concrete
simulator runs evaluate inside `decide`, and `qAdd_eq` below proves it
equal to `+`. -/
def qAdd (a b : ℚ) : ℚ :=
  mkRat (a.num * (b.den : ℤ) + b.num * (a.den : ℤ)) (a.den * b.den)

/-- Reducible rational subtraction; equals `-` by `qSub_eq`. -/
def qSub (a b : ℚ) : ℚ :=
  mkRat (a.num * (b.den : ℤ) - b.num * (a.den : ℤ)) (a.den * b.den)

/-- Reducible rational multiplication; equals `*` by `qMul_eq`. -/
def qMul (a b : ℚ) : ℚ :=
  mkRat (a.num * b.num) (a.den * b.den)

/-- Reducible rational division; equals `/` by `qDiv_eq`. -/
def qDiv (a b : ℚ) : ℚ :=
  if 0 ≤ b.num then mkRat (a.num * (b.den : ℤ)) (a.den * b.num.natAbs)
  else mkRat (-(a.num * (b.den : ℤ))) (a.den * b.num.natAbs)

/-- Float addition; `NaN` propagates. -/
def pAdd : PFloat → PFloat → PFloat
  | some a, some b => some (qAdd a b)
  | _, _ => Option.none

/-- Float subtraction; `NaN` propagates. -/
def pSub : PFloat → PFloat → PFloat
  | some a, some b => some (qSub a b)
  | _, _ => Option.none

/-- Float multiplication; `NaN` propagates. -/
def pMul : PFloat → PFloat → PFloat
  | some a, some b => some (qMul a b)
  | _, _ => Option.none

/-- Multiplication by a non-`NaN` scalar; `NaN` propagates. -/
def pScale (x : PFloat) (c : ℚ) : PFloat := x.map (fun v => qMul v c)

/-- Python `x < c`: false when `x` is `NaN`. -/
def pLt (x : PFloat) (c : ℚ) : Bool :=
  match x with
  | some a => decide (a < c)
  | _ => false

/-- Python `x <= c`: false when `x` is `NaN`. -/
def pLe (x : PFloat) (c : ℚ) : Bool :=
  match x with
  | some a => decide (a ≤ c)
  | _ => false

/-- Python `x > c`: false when `x` is `NaN`. -/
def pGt (x : PFloat) (c : ℚ) : Bool :=
  match x with
  | some a => decide (c < a)
  | _ => false

/-- An entry of a pandas object column holding an asset name:
Python `None`, pandas `NaN`, or an asset string. -/
inductive PyAsset where
  | none
  | nan
  | asset (s : String)
  deriving DecidableEq, Repr

/-- Python `x is not None`: true for `NaN` and for assets. -/
def PyAsset.isNotNone : PyAsset → Bool
  | PyAsset.none => false
  | _ => true

/-- Python `x is not None and not pd.isna(x)`: true only for assets. -/
def PyAsset.isAssetStr : PyAsset → Bool
  | PyAsset.asset _ => true
  | _ => false

/-- Python `!=` on two object cells (`NaN != NaN` is `True`,
`None != None` is `False`). -/
def pyNe : PyAsset → PyAsset → Bool
  | PyAsset.asset a, PyAsset.asset b => decide (a ≠ b)
  | PyAsset.nan, _ => true
  | _, PyAsset.nan => true
  | PyAsset.none, PyAsset.none => false
  | PyAsset.none, PyAsset.asset _ => true
  | PyAsset.asset _, PyAsset.none => true

/-- Python `==` between a best-pair cell (string or `None`) and a
carried object cell (`None == None` is `True`; `NaN` equals nothing). -/
def pyEqOpt : Option String → PyAsset → Bool
  | Option.none, PyAsset.none => true
  | some a, PyAsset.asset b => decide (a = b)
  | _, _ => false

/-- Lift a best-pair cell to an object-column cell (assignment at
lines 345-346/354-355 stores the value as is). -/
def PyAsset.ofOpt : Option String → PyAsset
  | Option.none => PyAsset.none
  | some s => PyAsset.asset s

/-- One input period: timestamp (seconds) and the per-asset
`(name, supply_apy, variable_borrow_apy)` columns of `data_df`, in
column order; a `none` rate is a `NaN` cell. -/
structure DataRow where
  timestamp : ℤ
  rates : List (String × PFloat × PFloat)
  deriving DecidableEq, Repr

/-- Column lookup `data_df.loc[i, f"{asset}_supply_apy"]` (line 289);
a missing column is modelled as `NaN` (unreachable for assets drawn
from the same table). -/
def lookupSupplyRate (rates : List (String × PFloat × PFloat)) (a : String) : PFloat :=
  match rates.find? (fun r => r.1 == a) with
  | some r => r.2.1
  | Option.none => Option.none

/-- Column lookup `data_df.loc[i, f"{asset}_variable_borrow_apy"]` (line 293). -/
def lookupBorrowRate (rates : List (String × PFloat × PFloat)) (a : String) : PFloat :=
  match rates.find? (fun r => r.1 == a) with
  | some r => r.2.2
  | Option.none => Option.none

/-- One row of `find_best_pairs` output (lines 107-150): best supply
asset, best borrow asset and best spread (`None`/`NaN` when no pair is
available). -/
structure BestPair where
  bestSupply : Option String
  bestBorrow : Option String
  spread : PFloat
  deriving DecidableEq, Repr

/-- The nested maximization loop of `find_best_pairs` (lines 131-142):
initial best spread `-inf` is modelled by the `none` accumulator; the
strict `spread > best_spread` update keeps the first maximizer. -/
def bestPairFold (supplyRates borrowRates : List (String × ℚ)) :
    Option (String × String × ℚ) :=
  supplyRates.foldl
    (fun acc sr =>
      borrowRates.foldl
        (fun acc2 br =>
          let spread := qSub sr.2 br.2
          match acc2 with
          | Option.none => some (sr.1, br.1, spread)
          | some best => if best.2.2 < spread then some (sr.1, br.1, spread) else acc2)
        acc)
    Option.none

/-- Best pair of one period (lines 123-148): `NaN` rates are dropped
from the candidate dictionaries before the scan. -/
def bestPairCalc (rates : List (String × PFloat × PFloat)) : BestPair :=
  let supplyRates := rates.filterMap (fun r => r.2.1.map (fun v => (r.1, v)))
  let borrowRates := rates.filterMap (fun r => r.2.2.map (fun v => (r.1, v)))
  match bestPairFold supplyRates borrowRates with
  | Option.none => ⟨Option.none, Option.none, Option.none⟩
  | some best => ⟨some best.1, some best.2.1, some best.2.2⟩

/-- Default entry used for out-of-range best-pair indexing. -/
def dfltBP : ℤ × BestPair := (0, ⟨Option.none, Option.none, Option.none⟩)

/-- The `results` table after `find_best_pairs` and
`sort_values('timestamp')` (lines 215-219): timestamped best pairs in
timestamp order (pandas sorting of distinct keys is modelled by
insertion sort). -/
def bestPairsSorted (rows : List DataRow) : List (ℤ × BestPair) :=
  List.insertionSort (fun a b => a.1 ≤ b.1)
    (rows.map (fun r => (r.timestamp, bestPairCalc r.rates)))

/-- Constant `TRANSACTION_COST_USD = 0.06` (line 211). -/
def TRANSACTION_COST_USD : ℚ := mkRat 6 100

/-- Constant `SWAP_FEE_PERCENTAGE = 0.000` (line 212). -/
def SWAP_FEE_PERCENTAGE : ℚ := 0

/-- Backtest parameters.  `number_of_loops` and `leverage` are the
values the code derives from `(LTV, stop_condition)` at lines 249-251
(that float-log computation is modelled over `ℝ` by the standalone
`number_of_loops`/`total_collateral_calc` definitions). -/
structure Params where
  initial_collateral : ℚ
  time_interval_hours : ℚ
  consecutive_periods : ℕ
  number_of_loops : ℕ
  leverage : ℚ
  deriving DecidableEq, Repr

/-- One row of the simulator's output table (the columns initialized at
lines 222-242 and written by the loop). -/
structure SimRow where
  timestamp : ℤ
  hoursDiff : ℚ
  currentSupplyAsset : PyAsset
  currentBorrowAsset : PyAsset
  currentSupplyRate : PFloat
  currentBorrowRate : PFloat
  currentSpread : PFloat
  rebalanceStatus : String
  rebalanceCount : ℕ
  transactionCount : ℕ
  swapCount : ℚ
  totalSwaps : ℚ
  totalTransactions : ℕ
  transactionCostsUsd : ℚ
  swapCostsUsd : PFloat
  totalCostsUsd : PFloat
  totalCollateral : PFloat
  leverageCol : PFloat
  periodReturn : PFloat
  annualizedReturn : PFloat
  positionValue : PFloat
  positionValueAfterCosts : PFloat
  deriving DecidableEq, Repr

/-- Default row used for out-of-range indexing in theorem statements. -/
def dfltSimRow : SimRow :=
  { timestamp := 0, hoursDiff := 0,
    currentSupplyAsset := PyAsset.none, currentBorrowAsset := PyAsset.none,
    currentSupplyRate := Option.none, currentBorrowRate := Option.none,
    currentSpread := Option.none, rebalanceStatus := "",
    rebalanceCount := 0, transactionCount := 0, swapCount := 0,
    totalSwaps := 0, totalTransactions := 0, transactionCostsUsd := 0,
    swapCostsUsd := Option.none, totalCostsUsd := Option.none,
    totalCollateral := Option.none, leverageCol := Option.none,
    periodReturn := Option.none, annualizedReturn := Option.none,
    positionValue := Option.none, positionValueAfterCosts := Option.none }

/-- Loop state: the previous output row together with the Python local
variable `current_spread` (line 278), which persists across periods and
is reassigned only at line 295. -/
structure SimState where
  row : SimRow
  localSpread : PFloat
  deriving DecidableEq, Repr

/-- Lines 288-303: read the latest rates for the carried position.
Returns the `current_supply_rate`, `current_borrow_rate` and
`current_spread` column values, plus the updated local `current_spread`
variable (unchanged unless both legs are assets). -/
def rateBlock (rates : List (String × PFloat × PFloat)) (csa0 cba0 : PyAsset)
    (loc : PFloat) : PFloat × PFloat × PFloat × PFloat :=
  match csa0 with
  | PyAsset.asset a =>
    let sup := lookupSupplyRate rates a
    match cba0 with
    | PyAsset.asset b =>
      let bor := lookupBorrowRate rates b
      (sup, bor, pSub sup bor, pSub sup bor)
    | _ => (sup, some 0, some 0, loc)
  | _ => (some 0, some 0, some 0, loc)

/-- The rebalance decision of one loop iteration: which rule fired and
the new position it prescribes. -/
structure Decision where
  need : Bool
  newSupply : PyAsset
  newBorrow : PyAsset
  newSpread : PFloat
  status : String
  deriving DecidableEq, Repr

/-- Lines 305-349: the decision logic.  `local1` is the local
`current_spread` value after the rate block.  The window
`range(i-(consecutive_periods-1), i+1)` is `List.range'
(i+1-consecutive_periods) consecutive_periods` for `i ≥
consecutive_periods`. -/
def decidePhase (p : Params) (bps : List (ℤ × BestPair)) (i : ℕ)
    (csa0 cba0 : PyAsset) (local1 : PFloat) : Decision :=
  if csa0.isNotNone && pLt local1 (-10) then
    ⟨true, PyAsset.none, PyAsset.none, some 0, "rebalanced_negative"⟩
  else if p.consecutive_periods ≤ i then
    let window := List.range' (i + 1 - p.consecutive_periods) p.consecutive_periods
    if window.any (fun j => pLe ((bps.getD j dfltBP).2).spread 0) && cba0.isNotNone then
      ⟨true, csa0, PyAsset.none, some 0, "rebalanced_negative"⟩
    else if (!window.any (fun j =>
          pyEqOpt ((bps.getD j dfltBP).2).bestSupply csa0 &&
          pyEqOpt ((bps.getD j dfltBP).2).bestBorrow cba0)) &&
        pGt ((bps.getD i dfltBP).2).spread 0 then
      ⟨true, PyAsset.ofOpt ((bps.getD i dfltBP).2).bestSupply,
        PyAsset.ofOpt ((bps.getD i dfltBP).2).bestBorrow,
        ((bps.getD i dfltBP).2).spread, "rebalanced_best_pair"⟩
    else ⟨false, csa0, cba0, local1, "no_rebalance"⟩
  else ⟨false, csa0, cba0, local1, "no_rebalance"⟩

/-- Lines 351-442: apply the decision, update counters, costs, and the
period return, producing row `i` from row `i-1`. -/
def finishStep (p : Params) (prev : SimRow) (hd : ℚ) (ts : ℤ)
    (supCol borCol spCol0 : PFloat) (d : Decision) : SimRow :=
  let txSwap : ℕ × ℚ :=
    if prev.currentBorrowAsset.isNotNone then
      if d.newBorrow.isNotNone then (4 * p.number_of_loops, 2)
      else (2 * p.number_of_loops + 2, 1)
    else
      if d.newBorrow.isNotNone then (2 * p.number_of_loops, 1)
      else if pyNe d.newSupply prev.currentSupplyAsset then (2, qDiv 1 p.leverage)
      else (0, 0)
  let txCount : ℕ := if d.need then txSwap.1 else 0
  let swapCount : ℚ := if d.need then txSwap.2 else 0
  let totalCollateralNew : PFloat := pScale prev.positionValue p.leverage
  let periodTxCosts : ℚ := qMul (txCount : ℚ) TRANSACTION_COST_USD
  let periodSwapCosts : PFloat :=
    if d.need then
      if 0 < txSwap.2 then
        pScale (if d.newBorrow.isNotNone then totalCollateralNew else prev.positionValue)
          (qMul SWAP_FEE_PERCENTAGE txSwap.2)
      else some 0
    else some 0
  let totalCosts : PFloat :=
    if d.need then pAdd (pAdd (some periodTxCosts) periodSwapCosts) prev.totalCostsUsd
    else prev.totalCostsUsd
  let finalSupply := if d.need then d.newSupply else prev.currentSupplyAsset
  let finalBorrow := if d.need then d.newBorrow else prev.currentBorrowAsset
  let finalSpread := if d.need then d.newSpread else spCol0
  let srDec := pScale supCol (mkRat 1 100)
  let ann :=
    if finalBorrow.isNotNone then
      pAdd srDec (pScale (pScale finalSpread (mkRat 1 100)) (qSub p.leverage 1))
    else srDec
  let pr := pScale ann (qDiv hd 8760)
  let pv := pMul prev.positionValue (pAdd (some 1) pr)
  { timestamp := ts, hoursDiff := hd,
    currentSupplyAsset := finalSupply, currentBorrowAsset := finalBorrow,
    currentSupplyRate := supCol, currentBorrowRate := borCol,
    currentSpread := finalSpread,
    rebalanceStatus := if d.need then d.status else "no_rebalance",
    rebalanceCount := if d.need then 1 else 0,
    transactionCount := txCount, swapCount := swapCount,
    totalSwaps := qAdd prev.totalSwaps swapCount,
    totalTransactions := prev.totalTransactions + txCount,
    transactionCostsUsd := periodTxCosts, swapCostsUsd := periodSwapCosts,
    totalCostsUsd := totalCosts,
    totalCollateral := if d.need then totalCollateralNew else Option.none,
    leverageCol := Option.none,
    periodReturn := pScale pr 100, annualizedReturn := pScale ann 100,
    positionValue := pv,
    positionValueAfterCosts := pSub pv totalCosts }

/-- One iteration of the simulation loop (lines 279-442) at index
`i ≥ 1`: the rate lookups read the original `data_df` row `i` while the
best pairs and timestamps come from the sorted `results` table. -/
def simStep (p : Params) (rows : List DataRow) (bps : List (ℤ × BestPair))
    (i : ℕ) (st : SimState) : SimState :=
  let rates := (rows.getD i ⟨0, []⟩).rates
  let ts := (bps.getD i dfltBP).1
  let tsPrev := (bps.getD (i - 1) dfltBP).1
  let hd : ℚ := qDiv ((ts - tsPrev : ℤ) : ℚ) 3600
  let rb := rateBlock rates st.row.currentSupplyAsset st.row.currentBorrowAsset st.localSpread
  let d := decidePhase p bps i st.row.currentSupplyAsset st.row.currentBorrowAsset rb.2.2.2
  ⟨finishStep p st.row hd ts rb.1 rb.2.1 rb.2.2.1 d, rb.2.2.2⟩

/-- Row 0 of the output (lines 244-275): holds the initial collateral;
opens a leveraged position at the first best pair when the first
period's spread is positive.  The untouched object columns keep their
pandas defaults (`NaN` assets, `no_rebalance`, zero counters). -/
def initRow (p : Params) (bps : List (ℤ × BestPair)) : SimRow :=
  let bp0 := (bps.getD 0 dfltBP).2
  let ts0 := (bps.getD 0 dfltBP).1
  let total0 : ℚ := qMul p.initial_collateral p.leverage
  if pGt bp0.spread 0 then
    let txCount := 2 * p.number_of_loops
    let itc : ℚ := qMul (txCount : ℚ) TRANSACTION_COST_USD
    let isc : ℚ := qMul (qMul total0 SWAP_FEE_PERCENTAGE) 1
    { timestamp := ts0, hoursDiff := p.time_interval_hours,
      currentSupplyAsset := PyAsset.ofOpt bp0.bestSupply,
      currentBorrowAsset := PyAsset.ofOpt bp0.bestBorrow,
      currentSupplyRate := some 0, currentBorrowRate := some 0,
      currentSpread := bp0.spread,
      rebalanceStatus := "no_rebalance",
      rebalanceCount := 1, transactionCount := txCount, swapCount := 1,
      totalSwaps := 0, totalTransactions := 0,
      transactionCostsUsd := itc, swapCostsUsd := some isc,
      totalCostsUsd := some (qAdd itc isc),
      totalCollateral := some total0, leverageCol := some p.leverage,
      periodReturn := some 0, annualizedReturn := some 0,
      positionValue := some p.initial_collateral,
      positionValueAfterCosts := some (qSub (qSub p.initial_collateral itc) isc) }
  else
    { timestamp := ts0, hoursDiff := p.time_interval_hours,
      currentSupplyAsset := PyAsset.nan, currentBorrowAsset := PyAsset.nan,
      currentSupplyRate := some 0, currentBorrowRate := some 0,
      currentSpread := some 0,
      rebalanceStatus := "no_rebalance",
      rebalanceCount := 0, transactionCount := 0, swapCount := 0,
      totalSwaps := 0, totalTransactions := 0,
      transactionCostsUsd := 0, swapCostsUsd := some 0,
      totalCostsUsd := some 0,
      totalCollateral := some total0, leverageCol := some p.leverage,
      periodReturn := some 0, annualizedReturn := some 0,
      positionValue := some p.initial_collateral,
      positionValueAfterCosts := some p.initial_collateral }

/-- The loop state after period `i` (state `0` is row 0 plus the
line-278 initialization `current_spread = 0.0`). -/
def simStates (p : Params) (rows : List DataRow) : ℕ → SimState
  | 0 => ⟨initRow p (bestPairsSorted rows), some 0⟩
  | n + 1 => simStep p rows (bestPairsSorted rows) (n + 1) (simStates p rows n)

/-- The full backtest output: one `SimRow` per input period. -/
def backtest (p : Params) (rows : List DataRow) : List SimRow :=
  (List.range rows.length).map (fun i => (simStates p rows i).row)

/-! ## Claim C1 -/

/-- Concrete parameter set used in counterexamples and witnesses:
`initial_collateral = 100`, `time_interval_hours = 4`,
`consecutive_periods = 2`, `number_of_loops = 2`, `leverage = 2`. -/
def exParams : Params := ⟨100, 4, 2, 2, 2⟩

/-- Three-period series: the pair spread is `+2` in periods 0 and 1 and
`-1` in period 2, so the lookback window at period 2 mixes a positive
and a non-positive spread. -/
def c1Rows : List DataRow :=
  [⟨0, [("A", some 5, some 3)]⟩, ⟨3600, [("A", some 5, some 3)]⟩,
    ⟨7200, [("A", some 3, some 4)]⟩]

/-! ### Loop-state invariant -/

/-- A best-pair leg cell holding no position: Python `None` or pandas
`NaN`. -/
def emptyLeg (x : PyAsset) : Prop := x = PyAsset.none ∨ x = PyAsset.nan

/-- Invariant of the loop state: the local `current_spread` variable is
still `0.0` while the supply cell is the initial `NaN`, and a supply-only
position always coexists with a local spread that cannot trip the
circuit breaker (it was fresh, and not below `-10`, when the position
was delevered, and is never reassigned while the borrow leg is empty). -/
def SimInv (st : SimState) : Prop :=
  (st.row.currentSupplyAsset = PyAsset.nan → st.localSpread = some 0) ∧
  (∀ s, st.row.currentSupplyAsset = PyAsset.asset s →
    st.row.currentBorrowAsset = PyAsset.none → pLt st.localSpread (-10) = false)

/-- Four-period series reaching a supply-only position at period 2
(delevered there) and rebalancing to the best pair at period 3. -/
def c10Rows : List DataRow :=
  [⟨0, [("A", some 5, some 3)]⟩, ⟨3600, [("A", some 5, some 3)]⟩,
    ⟨7200, [("A", some 3, some 4)]⟩, ⟨10800, [("A", some 5, some 3)]⟩]

/-- Two-period series: no pair is profitable at period 0, and the
spread turns positive at period 1, before `consecutive_periods` of
history exist. -/
def c5Rows : List DataRow :=
  [⟨0, [("A", some 3, some 5)]⟩, ⟨3600, [("A", some 5, some 3)]⟩]

/-- Three-period series for the witness: no pair is profitable at
period 0 and the spread is positive at periods 1 and 2, so the
simulator opens at period `2 = consecutive_periods`. -/
def c5OpenRows : List DataRow :=
  [⟨0, [("A", some 3, some 5)]⟩, ⟨3600, [("A", some 5, some 3)]⟩,
    ⟨7200, [("A", some 5, some 3)]⟩]

/-! ## Claim C6 -/

/-- Totality of the timestamp ordering used by the sort. -/
instance instIsTotalTsLe : IsTotal (ℤ × BestPair) (fun a b => a.1 ≤ b.1) :=
  ⟨fun a b => le_total a.1 b.1⟩

/-- Transitivity of the timestamp ordering used by the sort. -/
instance instIsTransTsLe : IsTrans (ℤ × BestPair) (fun a b => a.1 ≤ b.1) :=
  ⟨fun _ _ _ h h2 => le_trans h h2⟩

/-- Two-period series with strictly decreasing timestamps. -/
def c6Rows : List DataRow :=
  [⟨5, [("A", some 1, some 2)]⟩, ⟨3, [("A", some 4, some 1)]⟩]

/-! ## Theorems -/
/-! ## Helper bounds for integer floor/ceiling division -/

/-- Floor-division characterization: `k * (m / k)` is the largest
multiple of `k` not exceeding `m`. -/
theorem natFloorDiv_bounds (m k : ℕ) (hk : 0 < k) :
    k * (m / k) ≤ m ∧ m < k * (m / k) + k := by
  have h1 := Nat.div_add_mod m k
  have h2 := Nat.mod_lt m hk
  generalize hq : m / k = q at h1 ⊢
  generalize ht : k * q = t at h1 ⊢
  omega

/-- Ceiling-division characterization: `k * ((m + k - 1) / k)` is the
smallest multiple of `k` not below `m`. -/
theorem natCeilDiv_bounds (m k : ℕ) (hk : 0 < k) :
    m ≤ k * ((m + k - 1) / k) ∧ k * ((m + k - 1) / k) < m + k := by
  have h1 := Nat.div_add_mod (m + k - 1) k
  have h2 := Nat.mod_lt (m + k - 1) hk
  generalize hq : (m + k - 1) / k = q at h1 ⊢
  generalize ht : k * q = t at h1 ⊢
  omega

/-! ## Claims C2, C3, C4, C9 -/

/-- C2 counterexample: with `total_borrow_assets = 0` and a strictly
later call timestamp (`elapsed = 100 - 0 ≠ 0`), `accrue_interests`
returns the state unchanged, leaving `last_update` at `0` instead of
advancing it to `100` as the claim requires. -/
theorem c2_counterexample :
    (accrue_interests 100 ⟨0, 0, 0, 0, 0, 0⟩ 0).last_update = 0 ∧
      (100 : ℤ) - (0 : ℤ) ≠ 0 ∧ (0 : ℕ) ≠ 100 := by
  refine ⟨?_, by decide, by decide⟩
  decide

/-- C2 (amended): whenever `total_borrow_assets = 0`, `accrue_interests`
returns the market state entirely unchanged — `last_update` included —
for every call timestamp and rate; it never advances `last_update` in
this case. -/
theorem c2_no_borrow_state_unchanged (ts : ℕ) (ms : MarketState) (rate : ℕ)
    (h : ms.total_borrow_assets = 0) : accrue_interests ts ms rate = ms := by
  unfold accrue_interests
  simp [h]

/-- Witness for `c2_no_borrow_state_unchanged` at a concrete state. -/
theorem c2_no_borrow_state_unchanged_witness :
    accrue_interests 7 ⟨5, 6, 0, 0, 3, 1⟩ 2 = ⟨5, 6, 0, 0, 3, 1⟩ :=
  c2_no_borrow_state_unchanged 7 ⟨5, 6, 0, 0, 3, 1⟩ 2 rfl

/-- C3 counterexample: at `rate = 0`, `elapsed = 0` the code returns
`WAD = 10^18` while the claimed 3-term Taylor formula yields `0`. -/
theorem c3_counterexample :
    w_taylor_compounded 0 0 = 10 ^ 18 ∧ taylorCompoundedSpec 0 0 = 0 ∧
      w_taylor_compounded 0 0 ≠ taylorCompoundedSpec 0 0 := by
  refine ⟨by decide, by decide, by decide⟩

/-- C3 (amended): `w_taylor_compounded` first annualizes the product,
flooring `rate·time` through `SECONDS_PER_YEAR`, and then returns
`1 + x + x²/2` in WAD fixed point — with no cubic term: it equals the
single fraction `(x² + 2·WAD·(WAD + x)) / (2·WAD)` for
`x = rate·time/SECONDS_PER_YEAR`. -/
theorem c3_taylor_formula (rate time : ℕ) :
    w_taylor_compounded rate time =
      ((rate * time / SECONDS_PER_YEAR) * (rate * time / SECONDS_PER_YEAR) +
          2 * WAD * (WAD + rate * time / SECONDS_PER_YEAR)) / (2 * WAD) := by
  show WAD + rate * time / SECONDS_PER_YEAR +
      (rate * time / SECONDS_PER_YEAR) * (rate * time / SECONDS_PER_YEAR) / (2 * WAD) = _
  rw [Nat.add_mul_div_left _ _ (by norm_num [WAD] : 0 < 2 * WAD)]
  omega

/-- C4 counterexample: at `assets = 1, totalAssets = 0, totalShares = 0`
the code's `to_shares_down` returns `1` (its explicit zero-check branch)
while the claimed virtual-offset formula yields `10^6`; likewise
`to_assets_up 3 0 0 = 3` against the claimed formula's `1`.  The code
therefore does use reachable ad hoc zero-check branches instead of the
structurally nonzero virtual-offset divisors. -/
theorem c4_counterexample :
    to_shares_down 1 0 0 = 1 ∧ toSharesDownSpec 1 0 0 = 10 ^ 6 ∧
      to_shares_down 1 0 0 ≠ toSharesDownSpec 1 0 0 ∧
      to_assets_up 3 0 0 = 3 ∧ toAssetsUpSpec 3 0 0 = 1 ∧
      to_assets_up 3 0 0 ≠ toAssetsUpSpec 3 0 0 := by
  refine ⟨by decide, by decide, by decide, by decide, by decide, by decide⟩

/-- C4 (amended): the repository's conversions use no virtual offsets.
Each guards its denominator with an explicit zero-check that returns the
input unchanged, and on a nonzero denominator `to_shares_down` is the
floor of `assets·totalShares/totalAssets` while `to_assets_up` is the
ceiling of `shares·totalAssets/totalShares`. -/
theorem c4_conversion_characterization (a TA TS : ℕ) :
    (TA = 0 → to_shares_down a TA TS = a) ∧
    (TA ≠ 0 →
      TA * to_shares_down a TA TS ≤ a * TS ∧
      a * TS < TA * to_shares_down a TA TS + TA) ∧
    (TS = 0 → to_assets_up a TA TS = a) ∧
    (TS ≠ 0 →
      a * TA ≤ TS * to_assets_up a TA TS ∧
      TS * to_assets_up a TA TS < a * TA + TS) := by
  refine ⟨fun h => by simp [to_shares_down, h], fun h => ?_,
    fun h => by simp [to_assets_up, h], fun h => ?_⟩
  · unfold to_shares_down
    rw [if_pos h]
    exact natFloorDiv_bounds (a * TS) TA (Nat.pos_of_ne_zero h)
  · unfold to_assets_up
    rw [if_pos h]
    exact natCeilDiv_bounds (a * TA) TS (Nat.pos_of_ne_zero h)

/-- Witness for `c4_conversion_characterization` at concrete inputs. -/
theorem c4_conversion_characterization_witness :
    3 * to_shares_down 5 3 7 ≤ 5 * 7 ∧ 5 * 7 < 3 * to_shares_down 5 3 7 + 3 ∧
      5 * 3 ≤ 7 * to_assets_up 5 3 7 ∧ 7 * to_assets_up 5 3 7 < 5 * 3 + 7 := by
  have h := c4_conversion_characterization 5 3 7
  exact ⟨(h.2.1 (by decide)).1, (h.2.1 (by decide)).2,
    (h.2.2.2 (by decide)).1, (h.2.2.2 (by decide)).2⟩

/-- C9 counterexample: with the repository's offset-free halves, both
round-trip bounds fail at `a = 100, TA = 1, TS = 10^7` — the Down
round trip returns `181 > 100` and the Up round trip returns
`55 < 100` (the spec-modelled `toAssetsDown`/`toSharesUp` supply the
conversions the source lacks). -/
theorem c9_counterexample :
    toAssetsDownSpec (to_shares_down 100 1 10000000) 1 10000000 = 181 ∧
      ¬ toAssetsDownSpec (to_shares_down 100 1 10000000) 1 10000000 ≤ 100 ∧
      to_assets_up (toSharesUpSpec 100 1 10000000) 1 10000000 = 55 ∧
      ¬ 100 ≤ to_assets_up (toSharesUpSpec 100 1 10000000) 1 10000000 := by
  refine ⟨by decide, by decide, by decide, by decide⟩

/-- C9 (amended): for the virtual-offset conversion formulas the spec
describes (which the repository's own offset-free `to_shares_down` and
`to_assets_up` do not implement), both round-trip rounding bounds hold
for all non-negative inputs: down-then-down never exceeds the original
amount and up-then-up never undershoots it. -/
theorem c9_virtual_roundtrip (a TA TS : ℕ) :
    toAssetsDownSpec (toSharesDownSpec a TA TS) TA TS ≤ a ∧
      a ≤ toAssetsUpSpec (toSharesUpSpec a TA TS) TA TS := by
  have hB : 0 < TA + VIRTUAL_ASSETS := by
    have : (0 : ℕ) < VIRTUAL_ASSETS := by norm_num [VIRTUAL_ASSETS]
    omega
  have hS : 0 < TS + VIRTUAL_SHARES := by
    have : (0 : ℕ) < VIRTUAL_SHARES := by norm_num [VIRTUAL_SHARES]
    omega
  constructor
  · unfold toAssetsDownSpec toSharesDownSpec
    have h1 : a * (TS + VIRTUAL_SHARES) / (TA + VIRTUAL_ASSETS) * (TA + VIRTUAL_ASSETS) ≤
        a * (TS + VIRTUAL_SHARES) := Nat.div_mul_le_self _ _
    calc a * (TS + VIRTUAL_SHARES) / (TA + VIRTUAL_ASSETS) * (TA + VIRTUAL_ASSETS) /
          (TS + VIRTUAL_SHARES)
        ≤ a * (TS + VIRTUAL_SHARES) / (TS + VIRTUAL_SHARES) := Nat.div_le_div_right h1
      _ = a := Nat.mul_div_cancel a hS
  · unfold toAssetsUpSpec toSharesUpSpec
    have h1 := (natCeilDiv_bounds (a * (TS + VIRTUAL_SHARES)) (TA + VIRTUAL_ASSETS) hB).1
    generalize hs : (a * (TS + VIRTUAL_SHARES) + (TA + VIRTUAL_ASSETS) - 1) /
        (TA + VIRTUAL_ASSETS) = s at h1 ⊢
    have h2 := (natCeilDiv_bounds (s * (TA + VIRTUAL_ASSETS)) (TS + VIRTUAL_SHARES) hS).1
    generalize hr : (s * (TA + VIRTUAL_ASSETS) + (TS + VIRTUAL_SHARES) - 1) /
        (TS + VIRTUAL_SHARES) = r at h2 ⊢
    have h3 : (TS + VIRTUAL_SHARES) * a ≤ (TS + VIRTUAL_SHARES) * r := by
      calc (TS + VIRTUAL_SHARES) * a = a * (TS + VIRTUAL_SHARES) := Nat.mul_comm _ _
        _ ≤ (TA + VIRTUAL_ASSETS) * s := h1
        _ = s * (TA + VIRTUAL_ASSETS) := Nat.mul_comm _ _
        _ ≤ (TS + VIRTUAL_SHARES) * r := h2
    exact Nat.le_of_mul_le_mul_left h3 hS

/-- At the claim's parameters the ceiling of the log ratio is `3`. -/
theorem number_of_loops_eval : number_of_loops (9 / 10) (8 / 10) = 3 := by
  unfold number_of_loops
  have h45 : ((8 : ℝ) / 10) = ((5 / 4 : ℝ))⁻¹ := by norm_num
  have h109 : ((9 : ℝ) / 10) = ((10 / 9 : ℝ))⁻¹ := by norm_num
  rw [h45, h109, Real.log_inv, Real.log_inv, neg_div_neg_eq]
  have hb : 0 < Real.log (10 / 9) := Real.log_pos (by norm_num)
  rw [Int.ceil_eq_iff]
  constructor
  · have h2 : (2 : ℝ) * Real.log (10 / 9) < Real.log (5 / 4) := by
      have hpow : Real.log ((10 / 9 : ℝ) ^ (2 : ℕ)) = (2 : ℕ) * Real.log (10 / 9) :=
        Real.log_pow _ _
      have heq : ((10 / 9 : ℝ) ^ (2 : ℕ)) = 100 / 81 := by norm_num
      have hlt : Real.log ((100 : ℝ) / 81) < Real.log (5 / 4) :=
        Real.log_lt_log (by norm_num) (by norm_num)
      rw [heq] at hpow
      push_cast at hpow
      rw [hpow] at hlt
      exact hlt
    have : ((3 : ℤ) : ℝ) - 1 = 2 := by norm_num
    rw [this, lt_div_iff₀ hb]
    linarith
  · have h3 : Real.log (5 / 4) ≤ (3 : ℝ) * Real.log (10 / 9) := by
      have hpow : Real.log ((10 / 9 : ℝ) ^ (3 : ℕ)) = (3 : ℕ) * Real.log (10 / 9) :=
        Real.log_pow _ _
      have heq : ((10 / 9 : ℝ) ^ (3 : ℕ)) = 1000 / 729 := by norm_num
      have hle : Real.log ((5 : ℝ) / 4) ≤ Real.log (1000 / 729) :=
        (Real.log_le_log_iff (by norm_num) (by norm_num)).mpr (by norm_num)
      rw [heq] at hpow
      push_cast at hpow
      rw [hpow] at hle
      exact hle
    rw [div_le_iff₀ hb]
    push_cast
    linarith

/-- The total collateral evaluates exactly to `343.9` at the claim's
parameters. -/
theorem total_collateral_eval :
    total_collateral_calc 100 (9 / 10) (8 / 10) = 3439 / 10 := by
  unfold total_collateral_calc
  rw [number_of_loops_eval]
  rw [show Int.toNat 3 + 1 = 4 from rfl]
  norm_num

/-- C7 counterexample: the claim's own formula
`100·(1−0.9⁴)/(1−0.9)` evaluates to `343.9`, which is not
"approximately `339.9`" — it misses the claimed value by `4`. -/
theorem c7_counterexample :
    total_collateral_calc 100 (9 / 10) (8 / 10) = 3439 / 10 ∧
      (3439 / 10 : ℝ) ≠ 3399 / 10 ∧ 1 ≤ |(3439 : ℝ) / 10 - 3399 / 10| := by
  refine ⟨total_collateral_eval, by norm_num, by rw [abs_of_nonneg] <;> norm_num⟩

/-- C7 (amended): for `LTV = 0.9`, `stop_condition = 0.8` and
`initial_collateral = 100` the backtest computes
`number_of_loops = ceil(ln 0.8 / ln 0.9) = 3` and
`total_collateral = 100·(1 − 0.9⁴)/(1 − 0.9) = 343.9` exactly
(approximately `343.9`, not `339.9`). -/
theorem c7_leverage_sizing :
    number_of_loops (9 / 10) (8 / 10) = 3 ∧
      total_collateral_calc 100 (9 / 10) (8 / 10) = 3439 / 10 :=
  ⟨number_of_loops_eval, total_collateral_eval⟩

/-! ### Indexing and shape infrastructure -/

/-- Reading a list back out of `getD` over its index range. -/
theorem range_map_getD {α : Type} (l : List α) (d : α) :
    (List.range l.length).map (fun i => l.getD i d) = l := by
  induction l with
  | nil => rfl
  | cons x t ih =>
    rw [List.length_cons, List.range_succ_eq_map, List.map_cons, List.map_map]
    simp only [Function.comp_def, List.getD_cons_zero, List.getD_cons_succ]
    rw [ih]

/-- The backtest produces one output row per input period. -/
theorem backtest_length (p : Params) (rows : List DataRow) :
    (backtest p rows).length = rows.length := by
  simp [backtest]

/-- Row `i` of the backtest output is the loop state after period `i`. -/
theorem backtest_getD (p : Params) (rows : List DataRow) (i : ℕ)
    (h : i < rows.length) (d : SimRow) :
    (backtest p rows).getD i d = (simStates p rows i).row := by
  unfold backtest
  rw [List.getD_eq_getElem?_getD, List.getElem?_map, List.getElem?_range h]
  rfl

/-- A best-pair row is either fully empty or fully populated. -/
theorem bestPairCalc_shape (rates : List (String × PFloat × PFloat)) :
    bestPairCalc rates = ⟨Option.none, Option.none, Option.none⟩ ∨
      ∃ a b v, bestPairCalc rates = ⟨some a, some b, some v⟩ := by
  cases hbf : bestPairFold (rates.filterMap (fun r => r.2.1.map (fun v => (r.1, v))))
      (rates.filterMap (fun r => r.2.2.map (fun v => (r.1, v)))) with
  | none => exact Or.inl (by simp [bestPairCalc, hbf])
  | some best => exact Or.inr ⟨best.1, best.2.1, best.2.2, by simp [bestPairCalc, hbf]⟩

/-- Every indexed entry of the sorted best-pair table is either fully
empty or fully populated. -/
theorem bestPairsSorted_getD_shape (rows : List DataRow) (j : ℕ) :
    ((bestPairsSorted rows).getD j dfltBP).2 = ⟨Option.none, Option.none, Option.none⟩ ∨
      ∃ a b v, ((bestPairsSorted rows).getD j dfltBP).2 = ⟨some a, some b, some v⟩ := by
  by_cases hj : j < (bestPairsSorted rows).length
  · rw [List.getD_eq_getElem _ _ hj]
    have hmem : (bestPairsSorted rows)[j] ∈ bestPairsSorted rows := List.getElem_mem hj
    unfold bestPairsSorted at hmem
    rw [List.mem_insertionSort] at hmem
    rw [List.mem_map] at hmem
    obtain ⟨r, _, hr⟩ := hmem
    have h2 : ((bestPairsSorted rows)[j]).2 = bestPairCalc r.rates := by
      unfold bestPairsSorted
      rw [← hr]
    rw [h2]
    exact bestPairCalc_shape r.rates
  · rw [List.getD_eq_default _ _ (Nat.le_of_not_lt hj)]
    exact Or.inl rfl

/-- A positive best spread forces a fully populated best-pair entry. -/
theorem bps_getD_pos_spread (rows : List DataRow) (j : ℕ)
    (h : pGt ((bestPairsSorted rows).getD j dfltBP).2.spread 0 = true) :
    ∃ a b v, ((bestPairsSorted rows).getD j dfltBP).2 = ⟨some a, some b, some v⟩ := by
  rcases bestPairsSorted_getD_shape rows j with hsh | hsh
  · rw [hsh] at h
    simp [pGt] at h
  · exact hsh

/-! ### Step structure lemmas -/

/-- Unfolding of the loop state recursion. -/
theorem simStates_succ (p : Params) (rows : List DataRow) (n : ℕ) :
    simStates p rows (n + 1) =
      simStep p rows (bestPairsSorted rows) (n + 1) (simStates p rows n) := rfl

/-- The supply leg of the produced row. -/
theorem finishStep_currentSupplyAsset (p : Params) (prev : SimRow) (hd : ℚ) (ts : ℤ)
    (a b c : PFloat) (d : Decision) :
    (finishStep p prev hd ts a b c d).currentSupplyAsset =
      if d.need then d.newSupply else prev.currentSupplyAsset := rfl

/-- The borrow leg of the produced row. -/
theorem finishStep_currentBorrowAsset (p : Params) (prev : SimRow) (hd : ℚ) (ts : ℤ)
    (a b c : PFloat) (d : Decision) :
    (finishStep p prev hd ts a b c d).currentBorrowAsset =
      if d.need then d.newBorrow else prev.currentBorrowAsset := rfl

/-- The rebalance tag of the produced row. -/
theorem finishStep_rebalanceStatus (p : Params) (prev : SimRow) (hd : ℚ) (ts : ℤ)
    (a b c : PFloat) (d : Decision) :
    (finishStep p prev hd ts a b c d).rebalanceStatus =
      if d.need then d.status else "no_rebalance" := rfl

/-- The cumulative transaction counter always extends the previous one. -/
theorem finishStep_totalTransactions (p : Params) (prev : SimRow) (hd : ℚ) (ts : ℤ)
    (a b c : PFloat) (d : Decision) :
    (finishStep p prev hd ts a b c d).totalTransactions =
      prev.totalTransactions + (finishStep p prev hd ts a b c d).transactionCount := rfl

/-- The cumulative swap counter always extends the previous one. -/
theorem finishStep_totalSwaps (p : Params) (prev : SimRow) (hd : ℚ) (ts : ℤ)
    (a b c : PFloat) (d : Decision) :
    (finishStep p prev hd ts a b c d).totalSwaps =
      qAdd prev.totalSwaps (finishStep p prev hd ts a b c d).swapCount := rfl

/-- The cost-adjusted value column is assigned the difference of the
value and cumulative-cost columns. -/
theorem finishStep_positionValueAfterCosts (p : Params) (prev : SimRow) (hd : ℚ) (ts : ℤ)
    (a b c : PFloat) (d : Decision) :
    (finishStep p prev hd ts a b c d).positionValueAfterCosts =
      pSub (finishStep p prev hd ts a b c d).positionValue
        (finishStep p prev hd ts a b c d).totalCostsUsd := rfl

/-- The produced row's timestamp is the sorted table's timestamp. -/
theorem finishStep_timestamp (p : Params) (prev : SimRow) (hd : ℚ) (ts : ℤ)
    (a b c : PFloat) (d : Decision) :
    (finishStep p prev hd ts a b c d).timestamp = ts := rfl

/-- Unfolding of one loop iteration into rate block, decision and row
construction. -/
theorem simStep_eq (p : Params) (rows : List DataRow) (bps : List (ℤ × BestPair))
    (i : ℕ) (st : SimState) :
    simStep p rows bps i st =
      ⟨finishStep p st.row
          (qDiv (((bps.getD i dfltBP).1 - (bps.getD (i - 1) dfltBP).1 : ℤ) : ℚ) 3600)
          (bps.getD i dfltBP).1
          (rateBlock (rows.getD i ⟨0, []⟩).rates st.row.currentSupplyAsset
            st.row.currentBorrowAsset st.localSpread).1
          (rateBlock (rows.getD i ⟨0, []⟩).rates st.row.currentSupplyAsset
            st.row.currentBorrowAsset st.localSpread).2.1
          (rateBlock (rows.getD i ⟨0, []⟩).rates st.row.currentSupplyAsset
            st.row.currentBorrowAsset st.localSpread).2.2.1
          (decidePhase p bps i st.row.currentSupplyAsset st.row.currentBorrowAsset
            (rateBlock (rows.getD i ⟨0, []⟩).rates st.row.currentSupplyAsset
              st.row.currentBorrowAsset st.localSpread).2.2.2),
        (rateBlock (rows.getD i ⟨0, []⟩).rates st.row.currentSupplyAsset
          st.row.currentBorrowAsset st.localSpread).2.2.2⟩ := rfl

/-- Rate block when both carried legs are assets: the local spread is
reassigned to the fresh spread of row `i`. -/
theorem rateBlock_asset_asset (rates : List (String × PFloat × PFloat)) (a b : String)
    (loc : PFloat) :
    rateBlock rates (PyAsset.asset a) (PyAsset.asset b) loc =
      (lookupSupplyRate rates a, lookupBorrowRate rates b,
        pSub (lookupSupplyRate rates a) (lookupBorrowRate rates b),
        pSub (lookupSupplyRate rates a) (lookupBorrowRate rates b)) := rfl

/-- Rate block when the carried supply leg is an asset but the borrow
leg is not: the local spread is left untouched. -/
theorem rateBlock_asset_other (rates : List (String × PFloat × PFloat)) (a : String)
    (cba0 : PyAsset) (loc : PFloat) (h : cba0.isAssetStr = false) :
    rateBlock rates (PyAsset.asset a) cba0 loc =
      (lookupSupplyRate rates a, some 0, some 0, loc) := by
  cases cba0 with
  | none => rfl
  | nan => rfl
  | asset b => simp [PyAsset.isAssetStr] at h

/-- Rate block when the carried supply leg is not an asset: the local
spread is left untouched. -/
theorem rateBlock_other (rates : List (String × PFloat × PFloat)) (csa0 cba0 : PyAsset)
    (loc : PFloat) (h : csa0.isAssetStr = false) :
    rateBlock rates csa0 cba0 loc = (some 0, some 0, some 0, loc) := by
  cases csa0 with
  | none => rfl
  | nan => rfl
  | asset a => simp [PyAsset.isAssetStr] at h

/-- Decision when the circuit breaker fires (line 311). -/
theorem decidePhase_breaker (p : Params) (bps : List (ℤ × BestPair)) (i : ℕ)
    (csa0 cba0 : PyAsset) (local1 : PFloat)
    (h : (csa0.isNotNone && pLt local1 (-10)) = true) :
    decidePhase p bps i csa0 cba0 local1 =
      ⟨true, PyAsset.none, PyAsset.none, some 0, "rebalanced_negative"⟩ := by
  simp [decidePhase, h]

/-- Decision when the persistent-suboptimal delever rule fires
(lines 319-333). -/
theorem decidePhase_delever (p : Params) (bps : List (ℤ × BestPair)) (i : ℕ)
    (csa0 cba0 : PyAsset) (local1 : PFloat)
    (h1 : (csa0.isNotNone && pLt local1 (-10)) = false)
    (h2 : p.consecutive_periods ≤ i)
    (h3 : ((List.range' (i + 1 - p.consecutive_periods) p.consecutive_periods).any
        (fun j => pLe ((bps.getD j dfltBP).2).spread 0) && cba0.isNotNone) = true) :
    decidePhase p bps i csa0 cba0 local1 =
      ⟨true, csa0, PyAsset.none, some 0, "rebalanced_negative"⟩ := by
  simp only [decidePhase, h1, Bool.false_eq_true, if_false, if_pos h2, h3, if_true]

/-- Decision when the best-pair switch rule fires (lines 334-349). -/
theorem decidePhase_switch (p : Params) (bps : List (ℤ × BestPair)) (i : ℕ)
    (csa0 cba0 : PyAsset) (local1 : PFloat)
    (h1 : (csa0.isNotNone && pLt local1 (-10)) = false)
    (h2 : p.consecutive_periods ≤ i)
    (h3 : ((List.range' (i + 1 - p.consecutive_periods) p.consecutive_periods).any
        (fun j => pLe ((bps.getD j dfltBP).2).spread 0) && cba0.isNotNone) = false)
    (h4 : ((!(List.range' (i + 1 - p.consecutive_periods) p.consecutive_periods).any
          (fun j => pyEqOpt ((bps.getD j dfltBP).2).bestSupply csa0 &&
            pyEqOpt ((bps.getD j dfltBP).2).bestBorrow cba0)) &&
        pGt ((bps.getD i dfltBP).2).spread 0) = true) :
    decidePhase p bps i csa0 cba0 local1 =
      ⟨true, PyAsset.ofOpt ((bps.getD i dfltBP).2).bestSupply,
        PyAsset.ofOpt ((bps.getD i dfltBP).2).bestBorrow,
        ((bps.getD i dfltBP).2).spread, "rebalanced_best_pair"⟩ := by
  simp only [decidePhase, h1, Bool.false_eq_true, if_false, if_pos h2, h3, h4, if_true]

/-- Decision in the hold case before `consecutive_periods` periods of
history exist. -/
theorem decidePhase_hold_early (p : Params) (bps : List (ℤ × BestPair)) (i : ℕ)
    (csa0 cba0 : PyAsset) (local1 : PFloat)
    (h1 : (csa0.isNotNone && pLt local1 (-10)) = false)
    (h2 : ¬ p.consecutive_periods ≤ i) :
    decidePhase p bps i csa0 cba0 local1 =
      ⟨false, csa0, cba0, local1, "no_rebalance"⟩ := by
  simp [decidePhase, h1, h2]

/-- Decision in the hold case when no rule fires. -/
theorem decidePhase_hold (p : Params) (bps : List (ℤ × BestPair)) (i : ℕ)
    (csa0 cba0 : PyAsset) (local1 : PFloat)
    (h1 : (csa0.isNotNone && pLt local1 (-10)) = false)
    (h2 : p.consecutive_periods ≤ i)
    (h3 : ((List.range' (i + 1 - p.consecutive_periods) p.consecutive_periods).any
        (fun j => pLe ((bps.getD j dfltBP).2).spread 0) && cba0.isNotNone) = false)
    (h4 : ((!(List.range' (i + 1 - p.consecutive_periods) p.consecutive_periods).any
          (fun j => pyEqOpt ((bps.getD j dfltBP).2).bestSupply csa0 &&
            pyEqOpt ((bps.getD j dfltBP).2).bestBorrow cba0)) &&
        pGt ((bps.getD i dfltBP).2).spread 0) = false) :
    decidePhase p bps i csa0 cba0 local1 =
      ⟨false, csa0, cba0, local1, "no_rebalance"⟩ := by
  simp only [decidePhase, h1, Bool.false_eq_true, if_false, if_pos h2, h3, h4]

/-- Characterization of one loop iteration from a leveraged previous
position whose fresh spread does not trip the circuit breaker: the
delever rule fires exactly when SOME period of the lookback window has
best-pair spread at most zero. -/
theorem simStep_leveraged_delever_iff (p : Params) (rows : List DataRow) (i : ℕ)
    (st : SimState) (s b : String)
    (hs : st.row.currentSupplyAsset = PyAsset.asset s)
    (hb : st.row.currentBorrowAsset = PyAsset.asset b)
    (hcp : p.consecutive_periods ≤ i)
    (hbr : pLt (pSub (lookupSupplyRate (rows.getD i ⟨0, []⟩).rates s)
        (lookupBorrowRate (rows.getD i ⟨0, []⟩).rates b)) (-10) = false) :
    (((simStep p rows (bestPairsSorted rows) i st).row.currentBorrowAsset = PyAsset.none ∧
        (simStep p rows (bestPairsSorted rows) i st).row.currentSupplyAsset =
          PyAsset.asset s ∧
        (simStep p rows (bestPairsSorted rows) i st).row.rebalanceStatus =
          "rebalanced_negative") ↔
      (List.range' (i + 1 - p.consecutive_periods) p.consecutive_periods).any
        (fun j => pLe (((bestPairsSorted rows).getD j dfltBP).2).spread 0) = true) := by
  have hrb : (rateBlock (rows.getD i ⟨0, []⟩).rates st.row.currentSupplyAsset
      st.row.currentBorrowAsset st.localSpread).2.2.2 =
      pSub (lookupSupplyRate (rows.getD i ⟨0, []⟩).rates s)
        (lookupBorrowRate (rows.getD i ⟨0, []⟩).rates b) := by
    rw [hs, hb, rateBlock_asset_asset]
  have hbreaker : ((st.row.currentSupplyAsset).isNotNone &&
      pLt (rateBlock (rows.getD i ⟨0, []⟩).rates st.row.currentSupplyAsset
        st.row.currentBorrowAsset st.localSpread).2.2.2 (-10)) = false := by
    rw [hrb, hs]
    simpa [PyAsset.isNotNone] using hbr
  by_cases hneg : (List.range' (i + 1 - p.consecutive_periods) p.consecutive_periods).any
      (fun j => pLe (((bestPairsSorted rows).getD j dfltBP).2).spread 0) = true
  · have hd := decidePhase_delever p (bestPairsSorted rows) i st.row.currentSupplyAsset
      st.row.currentBorrowAsset
      ((rateBlock (rows.getD i ⟨0, []⟩).rates st.row.currentSupplyAsset
        st.row.currentBorrowAsset st.localSpread).2.2.2)
      hbreaker hcp (by rw [hb, hneg]; rfl)
    rw [simStep_eq]
    simp only [finishStep_currentBorrowAsset, finishStep_currentSupplyAsset,
      finishStep_rebalanceStatus, hd]
    exact iff_of_true ⟨rfl, hs, rfl⟩ hneg
  · have hnegf : (List.range' (i + 1 - p.consecutive_periods) p.consecutive_periods).any
        (fun j => pLe (((bestPairsSorted rows).getD j dfltBP).2).spread 0) = false := by
      simpa using hneg
    have h3 : ((List.range' (i + 1 - p.consecutive_periods) p.consecutive_periods).any
        (fun j => pLe (((bestPairsSorted rows).getD j dfltBP).2).spread 0) &&
          (st.row.currentBorrowAsset).isNotNone) = false := by
      rw [hnegf]
      rfl
    by_cases hsw : ((!(List.range' (i + 1 - p.consecutive_periods)
          p.consecutive_periods).any
          (fun j => pyEqOpt (((bestPairsSorted rows).getD j dfltBP).2).bestSupply
              st.row.currentSupplyAsset &&
            pyEqOpt (((bestPairsSorted rows).getD j dfltBP).2).bestBorrow
              st.row.currentBorrowAsset)) &&
        pGt (((bestPairsSorted rows).getD i dfltBP).2).spread 0) = true
    · have hd := decidePhase_switch p (bestPairsSorted rows) i st.row.currentSupplyAsset
        st.row.currentBorrowAsset
        ((rateBlock (rows.getD i ⟨0, []⟩).rates st.row.currentSupplyAsset
          st.row.currentBorrowAsset st.localSpread).2.2.2)
        hbreaker hcp h3 hsw
      have hsw2 : pGt (((bestPairsSorted rows).getD i dfltBP).2).spread 0 = true := by
        cases hpg : pGt (((bestPairsSorted rows).getD i dfltBP).2).spread 0
        · rw [hpg] at hsw
          simp at hsw
        · rfl
      obtain ⟨a2, b2, v, hps⟩ := bps_getD_pos_spread rows i hsw2
      rw [simStep_eq]
      simp only [finishStep_currentBorrowAsset, finishStep_currentSupplyAsset,
        finishStep_rebalanceStatus, hd]
      refine iff_of_false (fun hcon => ?_) (by simp only [hnegf]; decide)
      have hcon1 := hcon.1
      rw [hps] at hcon1
      simp [PyAsset.ofOpt] at hcon1
    · have hswf : ((!(List.range' (i + 1 - p.consecutive_periods)
            p.consecutive_periods).any
            (fun j => pyEqOpt (((bestPairsSorted rows).getD j dfltBP).2).bestSupply
                st.row.currentSupplyAsset &&
              pyEqOpt (((bestPairsSorted rows).getD j dfltBP).2).bestBorrow
                st.row.currentBorrowAsset)) &&
          pGt (((bestPairsSorted rows).getD i dfltBP).2).spread 0) = false := by
        simpa using hsw
      have hd := decidePhase_hold p (bestPairsSorted rows) i st.row.currentSupplyAsset
        st.row.currentBorrowAsset
        ((rateBlock (rows.getD i ⟨0, []⟩).rates st.row.currentSupplyAsset
          st.row.currentBorrowAsset st.localSpread).2.2.2)
        hbreaker hcp h3 hswf
      rw [simStep_eq]
      simp only [finishStep_currentBorrowAsset, finishStep_currentSupplyAsset,
        finishStep_rebalanceStatus, hd]
      refine iff_of_false (fun hcon => ?_) (by simp only [hnegf]; decide)
      have hcon1 := hcon.1
      simp [hb] at hcon1

/-- C1 counterexample: at period 2 the previous period holds a
leveraged position, the fresh spread `-1` does not trip the circuit
breaker, and period 1 of the lookback window has positive best-pair
spread — yet the simulator delevers (drops the borrow leg with status
`rebalanced_negative`), because the code tests `any` spread ≤ 0 and not
`every` as the claim states. -/
theorem c1_counterexample :
    ((backtest exParams c1Rows).getD 1 dfltSimRow).currentSupplyAsset =
        PyAsset.asset "A" ∧
      ((backtest exParams c1Rows).getD 1 dfltSimRow).currentBorrowAsset =
        PyAsset.asset "A" ∧
      pLt (pSub (lookupSupplyRate (c1Rows.getD 2 ⟨0, []⟩).rates "A")
        (lookupBorrowRate (c1Rows.getD 2 ⟨0, []⟩).rates "A")) (-10) = false ∧
      pGt (((bestPairsSorted c1Rows).getD 1 dfltBP).2).spread 0 = true ∧
      ((backtest exParams c1Rows).getD 2 dfltSimRow).currentBorrowAsset =
        PyAsset.none ∧
      ((backtest exParams c1Rows).getD 2 dfltSimRow).currentSupplyAsset =
        PyAsset.asset "A" ∧
      ((backtest exParams c1Rows).getD 2 dfltSimRow).rebalanceStatus =
        "rebalanced_negative" := by
  refine ⟨by decide, by decide, by decide, by decide, by decide, by decide, by decide⟩

/-- C1 (amended): for every period `i ≥ consecutive_periods` at which
the previous period holds both a supply and a borrow asset and the
negative-spread circuit breaker does not fire, the simulator delevers
(sets the borrow leg to `None`, keeps the supply leg, tags
`rebalanced_negative`) exactly when AT LEAST ONE of the last
`consecutive_periods` periods had best-pair spread ≤ 0 — not when
every one did. -/
theorem c1_delever_iff_any_nonpositive (p : Params) (rows : List DataRow) (i : ℕ)
    (s b : String) (h1 : 1 ≤ i) (hi : i < rows.length)
    (hcp : p.consecutive_periods ≤ i)
    (hs : ((backtest p rows).getD (i - 1) dfltSimRow).currentSupplyAsset =
      PyAsset.asset s)
    (hb : ((backtest p rows).getD (i - 1) dfltSimRow).currentBorrowAsset =
      PyAsset.asset b)
    (hbr : pLt (pSub (lookupSupplyRate (rows.getD i ⟨0, []⟩).rates s)
        (lookupBorrowRate (rows.getD i ⟨0, []⟩).rates b)) (-10) = false) :
    ((((backtest p rows).getD i dfltSimRow).currentBorrowAsset = PyAsset.none ∧
        ((backtest p rows).getD i dfltSimRow).currentSupplyAsset = PyAsset.asset s ∧
        ((backtest p rows).getD i dfltSimRow).rebalanceStatus =
          "rebalanced_negative") ↔
      (List.range' (i + 1 - p.consecutive_periods) p.consecutive_periods).any
        (fun j => pLe (((bestPairsSorted rows).getD j dfltBP).2).spread 0) = true) := by
  obtain ⟨k, rfl⟩ : ∃ k, i = k + 1 := ⟨i - 1, by omega⟩
  rw [backtest_getD p rows (k + 1) hi] 
  simp only [Nat.add_sub_cancel] at hs hb
  rw [backtest_getD p rows k (by omega)] at hs hb
  rw [simStates_succ]
  exact simStep_leveraged_delever_iff p rows (k + 1) (simStates p rows k) s b hs hb hcp hbr

/-- Witness for `c1_delever_iff_any_nonpositive` at the concrete
counterexample run (period 2 of `c1Rows`). -/
theorem c1_delever_iff_any_nonpositive_witness :
    ((((backtest exParams c1Rows).getD 2 dfltSimRow).currentBorrowAsset =
          PyAsset.none ∧
        ((backtest exParams c1Rows).getD 2 dfltSimRow).currentSupplyAsset =
          PyAsset.asset "A" ∧
        ((backtest exParams c1Rows).getD 2 dfltSimRow).rebalanceStatus =
          "rebalanced_negative") ↔
      (List.range' (2 + 1 - exParams.consecutive_periods)
          exParams.consecutive_periods).any
        (fun j => pLe (((bestPairsSorted c1Rows).getD j dfltBP).2).spread 0) = true) :=
  c1_delever_iff_any_nonpositive exParams c1Rows 2 "A" "A" (by decide) (by decide)
    (by decide) (by decide) (by decide) (by decide)

/-! ### The reducible rational clones agree with the field operations -/

/-- Reducible addition equals library addition. -/
theorem qAdd_eq (a b : ℚ) : qAdd a b = a + b := by
  have ha : (a.den : ℚ) ≠ 0 := by exact_mod_cast a.den_nz
  have hb : (b.den : ℚ) ≠ 0 := by exact_mod_cast b.den_nz
  calc qAdd a b = ((a.num : ℚ) * b.den + b.num * a.den) / (a.den * b.den) := by
        unfold qAdd
        rw [Rat.mkRat_eq_div]
        push_cast
        ring_nf
    _ = (a.num : ℚ) / a.den + (b.num : ℚ) / b.den := by
        rw [div_add_div _ _ ha hb]
        ring_nf
    _ = a + b := by rw [Rat.num_div_den, Rat.num_div_den]

/-- Reducible subtraction equals library subtraction. -/
theorem qSub_eq (a b : ℚ) : qSub a b = a - b := by
  have ha : (a.den : ℚ) ≠ 0 := by exact_mod_cast a.den_nz
  have hb : (b.den : ℚ) ≠ 0 := by exact_mod_cast b.den_nz
  calc qSub a b = ((a.num : ℚ) * b.den - b.num * a.den) / (a.den * b.den) := by
        unfold qSub
        rw [Rat.mkRat_eq_div]
        push_cast
        ring_nf
    _ = (a.num : ℚ) / a.den - (b.num : ℚ) / b.den := by
        rw [div_sub_div _ _ ha hb]
        ring_nf
    _ = a - b := by rw [Rat.num_div_den, Rat.num_div_den]

/-- Reducible multiplication equals library multiplication. -/
theorem qMul_eq (a b : ℚ) : qMul a b = a * b := by
  calc qMul a b = ((a.num : ℚ) * b.num) / (a.den * b.den) := by
        unfold qMul
        rw [Rat.mkRat_eq_div]
        push_cast
        ring_nf
    _ = ((a.num : ℚ) / a.den) * ((b.num : ℚ) / b.den) := by
        rw [div_mul_div_comm]
    _ = a * b := by rw [Rat.num_div_den, Rat.num_div_den]

/-- Dividing the cross-multiplied numerator and denominator forms
reproduces division. -/
theorem qDiv_aux (a b : ℚ) : ((a.num : ℚ) * b.den) / ((a.den : ℚ) * b.num) = a / b := by
  rw [div_eq_mul_inv a b, Rat.inv_def', Rat.divInt_eq_div]
  push_cast
  conv_rhs => rw [← Rat.num_div_den a]
  rw [div_mul_div_comm]

/-- Reducible division equals library division. -/
theorem qDiv_eq (a b : ℚ) : qDiv a b = a / b := by
  unfold qDiv
  split_ifs with hsgn
  · rw [Rat.mkRat_eq_div]
    push_cast [Int.cast_natAbs]
    rw [abs_of_nonneg (by exact_mod_cast hsgn : (0 : ℚ) ≤ (b.num : ℚ))]
    exact qDiv_aux a b
  · rw [Rat.mkRat_eq_div]
    push_cast [Int.cast_natAbs]
    rw [abs_of_neg (by push_neg at hsgn; exact_mod_cast hsgn : ((b.num : ℚ) < 0))]
    rw [mul_neg, neg_div_neg_eq]
    exact qDiv_aux a b

/-- Exhaustive case analysis of the decision phase: exactly one of the
circuit breaker, the delever rule, the best-pair switch, or the hold
case applies, with the firing condition recorded. -/
theorem decidePhase_cases (p : Params) (rows : List DataRow) (i : ℕ)
    (csa0 cba0 : PyAsset) (local1 : PFloat) :
    (decidePhase p (bestPairsSorted rows) i csa0 cba0 local1 =
        ⟨true, PyAsset.none, PyAsset.none, some 0, "rebalanced_negative"⟩ ∧
      (csa0.isNotNone && pLt local1 (-10)) = true) ∨
    (decidePhase p (bestPairsSorted rows) i csa0 cba0 local1 =
        ⟨true, csa0, PyAsset.none, some 0, "rebalanced_negative"⟩ ∧
      (csa0.isNotNone && pLt local1 (-10)) = false ∧
      ((List.range' (i + 1 - p.consecutive_periods) p.consecutive_periods).any
        (fun j => pLe (((bestPairsSorted rows).getD j dfltBP).2).spread 0) &&
        cba0.isNotNone) = true) ∨
    (∃ a b v, decidePhase p (bestPairsSorted rows) i csa0 cba0 local1 =
        ⟨true, PyAsset.asset a, PyAsset.asset b, some v, "rebalanced_best_pair"⟩) ∨
    (decidePhase p (bestPairsSorted rows) i csa0 cba0 local1 =
        ⟨false, csa0, cba0, local1, "no_rebalance"⟩ ∧
      (csa0.isNotNone && pLt local1 (-10)) = false) := by
  simp only [decidePhase]
  split_ifs with h1 h2 h3 h4
  · exact Or.inl ⟨rfl, h1⟩
  · exact Or.inr (Or.inl ⟨rfl, by simpa using h1, h3⟩)
  · have h5 : pGt (((bestPairsSorted rows).getD i dfltBP).2).spread 0 = true := by
      cases hpg : pGt (((bestPairsSorted rows).getD i dfltBP).2).spread 0
      · rw [hpg] at h4
        simp at h4
      · rfl
    obtain ⟨a, b, v, hps⟩ := bps_getD_pos_spread rows i h5
    refine Or.inr (Or.inr (Or.inl ⟨a, b, v, ?_⟩))
    rw [hps]
    rfl
  · exact Or.inr (Or.inr (Or.inr ⟨rfl, by simpa using h1⟩))
  · exact Or.inr (Or.inr (Or.inr ⟨rfl, by simpa using h1⟩))

/-- The loop-state invariant is preserved by every iteration. -/
theorem simInv_step (p : Params) (rows : List DataRow) (i : ℕ) (st : SimState)
    (h : SimInv st) : SimInv (simStep p rows (bestPairsSorted rows) i st) := by
  obtain ⟨hnan, hso⟩ := h
  rcases decidePhase_cases p rows i st.row.currentSupplyAsset st.row.currentBorrowAsset
      (rateBlock (rows.getD i ⟨0, []⟩).rates st.row.currentSupplyAsset
        st.row.currentBorrowAsset st.localSpread).2.2.2 with
    ⟨hd, _⟩ | ⟨hd, hbr, _⟩ | ⟨a, b, v, hd⟩ | ⟨hd, hbr⟩
  · constructor
    · intro hcon
      rw [simStep_eq] at hcon
      dsimp only at hcon
      rw [finishStep_currentSupplyAsset, hd] at hcon
      simp at hcon
    · intro s hs2 _
      rw [simStep_eq] at hs2
      dsimp only at hs2
      rw [finishStep_currentSupplyAsset, hd] at hs2
      simp at hs2
  · constructor
    · intro hcon
      rw [simStep_eq] at hcon ⊢
      dsimp only at hcon
      rw [finishStep_currentSupplyAsset, hd] at hcon
      simp at hcon
      show (rateBlock (rows.getD i ⟨0, []⟩).rates st.row.currentSupplyAsset
        st.row.currentBorrowAsset st.localSpread).2.2.2 = some 0
      rw [rateBlock_other _ _ _ _ (by rw [hcon]; rfl)]
      exact hnan hcon
    · intro s hs2 _
      rw [simStep_eq] at hs2
      dsimp only at hs2
      rw [finishStep_currentSupplyAsset, hd] at hs2
      simp at hs2
      have hX : (st.row.currentSupplyAsset).isNotNone = true := by rw [hs2]; rfl
      rw [hX, Bool.true_and] at hbr
      show pLt (rateBlock (rows.getD i ⟨0, []⟩).rates st.row.currentSupplyAsset
        st.row.currentBorrowAsset st.localSpread).2.2.2 (-10) = false
      exact hbr
  · constructor
    · intro hcon
      rw [simStep_eq] at hcon
      dsimp only at hcon
      rw [finishStep_currentSupplyAsset, hd] at hcon
      simp at hcon
    · intro s hs2 hb2
      rw [simStep_eq] at hb2
      dsimp only at hb2
      rw [finishStep_currentBorrowAsset, hd] at hb2
      simp at hb2
  · constructor
    · intro hcon
      rw [simStep_eq] at hcon ⊢
      dsimp only at hcon
      rw [finishStep_currentSupplyAsset, hd] at hcon
      simp at hcon
      show (rateBlock (rows.getD i ⟨0, []⟩).rates st.row.currentSupplyAsset
        st.row.currentBorrowAsset st.localSpread).2.2.2 = some 0
      rw [rateBlock_other _ _ _ _ (by rw [hcon]; rfl)]
      exact hnan hcon
    · intro s hs2 _
      rw [simStep_eq] at hs2
      dsimp only at hs2
      rw [finishStep_currentSupplyAsset, hd] at hs2
      simp at hs2
      have hX : (st.row.currentSupplyAsset).isNotNone = true := by rw [hs2]; rfl
      rw [hX, Bool.true_and] at hbr
      show pLt (rateBlock (rows.getD i ⟨0, []⟩).rates st.row.currentSupplyAsset
        st.row.currentBorrowAsset st.localSpread).2.2.2 (-10) = false
      exact hbr

/-- The loop-state invariant holds after every period of every run. -/
theorem simInv_states (p : Params) (rows : List DataRow) (n : ℕ) :
    SimInv (simStates p rows n) := by
  induction n with
  | zero =>
    constructor
    · intro _
      rfl
    · intro s _ _
      show pLt (some 0) (-10) = false
      decide
  | succ n ih => exact simInv_step p rows (n + 1) (simStates p rows n) ih

/-- From a previous period whose borrow leg is Python `None`, the next
period's rebalance tag is never `rebalanced_negative`: the delever rule
requires a borrow leg, and the invariant keeps the stale local spread
from tripping the circuit breaker. -/
theorem no_negative_from_borrow_none (p : Params) (rows : List DataRow) (k : ℕ)
    (hb : (simStates p rows k).row.currentBorrowAsset = PyAsset.none) :
    (simStates p rows (k + 1)).row.rebalanceStatus ≠ "rebalanced_negative" := by
  obtain ⟨hnan, hso⟩ := simInv_states p rows k
  rcases decidePhase_cases p rows (k + 1)
      (simStates p rows k).row.currentSupplyAsset
      (simStates p rows k).row.currentBorrowAsset
      (rateBlock (rows.getD (k + 1) ⟨0, []⟩).rates
        (simStates p rows k).row.currentSupplyAsset
        (simStates p rows k).row.currentBorrowAsset
        (simStates p rows k).localSpread).2.2.2 with
    ⟨hd, hcond⟩ | ⟨hd, hbr, hcond⟩ | ⟨a, b, v, hd⟩ | ⟨hd, hbr⟩
  · exfalso
    cases hcsa : (simStates p rows k).row.currentSupplyAsset with
    | none =>
      rw [hcsa] at hcond
      simp [PyAsset.isNotNone] at hcond
    | nan =>
      have hloc := hnan hcsa
      rw [hcsa] at hcond
      rw [rateBlock_other _ _ _ _ (by rfl)] at hcond
      rw [hloc] at hcond
      exact absurd hcond (by decide)
    | asset s =>
      have hpltf := hso s hcsa hb
      rw [hcsa, hb] at hcond
      rw [rateBlock_asset_other _ _ _ _ (by rfl)] at hcond
      dsimp only at hcond
      rw [hpltf] at hcond
      simp at hcond
  · exfalso
    rw [hb] at hcond
    simp [PyAsset.isNotNone] at hcond
  · rw [simStates_succ, simStep_eq]
    dsimp only
    rw [finishStep_rebalanceStatus, hd]
    show ("rebalanced_best_pair" : String) ≠ "rebalanced_negative"
    decide
  · rw [simStates_succ, simStep_eq]
    dsimp only
    rw [finishStep_rebalanceStatus, hd]
    show ("no_rebalance" : String) ≠ "rebalanced_negative"
    decide

/-! ## Claim C10 -/

/-- C10 counterexample, as the proved negation of the claimed
existential: on no input series and parameters is a period whose
previous position is supply-only (borrow leg `None`) force-closed to no
position with tag `rebalanced_negative`. -/
theorem c10_counterexample :
    ¬ ∃ (p : Params) (rows : List DataRow) (i : ℕ) (s : String),
        1 ≤ i ∧ i < rows.length ∧
        ((backtest p rows).getD (i - 1) dfltSimRow).currentSupplyAsset =
          PyAsset.asset s ∧
        ((backtest p rows).getD (i - 1) dfltSimRow).currentBorrowAsset =
          PyAsset.none ∧
        ((backtest p rows).getD i dfltSimRow).currentSupplyAsset = PyAsset.none ∧
        ((backtest p rows).getD i dfltSimRow).rebalanceStatus =
          "rebalanced_negative" := by
  rintro ⟨p, rows, i, s, h1, hi, hs, hb, hclose, hst⟩
  obtain ⟨k, rfl⟩ : ∃ k, i = k + 1 := ⟨i - 1, by omega⟩
  rw [backtest_getD p rows (k + 1) hi] at hst
  simp only [Nat.add_sub_cancel] at hb
  rw [backtest_getD p rows k (by omega)] at hb
  exact no_negative_from_borrow_none p rows k hb hst

/-- C10 (amended): the breaker's guard does check only `is not None` on
the previous supply cell against a local spread variable reassigned only
in two-legged periods; nevertheless no force-close of a supply-only
previous position is reachable — whenever the previous period's borrow
leg is `None`, the period's rebalance tag is never
`rebalanced_negative` (for all inputs and parameters). -/
theorem c10_supply_only_never_negative (p : Params) (rows : List DataRow) (i : ℕ)
    (s : String) (h1 : 1 ≤ i) (hi : i < rows.length)
    (hs : ((backtest p rows).getD (i - 1) dfltSimRow).currentSupplyAsset =
      PyAsset.asset s)
    (hb : ((backtest p rows).getD (i - 1) dfltSimRow).currentBorrowAsset =
      PyAsset.none) :
    ((backtest p rows).getD i dfltSimRow).rebalanceStatus ≠
      "rebalanced_negative" := by
  obtain ⟨k, rfl⟩ : ∃ k, i = k + 1 := ⟨i - 1, by omega⟩
  rw [backtest_getD p rows (k + 1) hi]
  simp only [Nat.add_sub_cancel] at hb
  rw [backtest_getD p rows k (by omega)] at hb
  exact no_negative_from_borrow_none p rows k hb

/-- Witness for `c10_supply_only_never_negative` at a concrete run whose
period 2 is supply-only. -/
theorem c10_supply_only_never_negative_witness :
    ((backtest exParams c10Rows).getD 3 dfltSimRow).rebalanceStatus ≠
      "rebalanced_negative" :=
  c10_supply_only_never_negative exParams c10Rows 3 "A" (by decide) (by decide)
    (by decide) (by decide)

/-! ## Claim C5 -/

/-- A positive spread cell is not a non-positive spread cell. -/
theorem pGt_zero_pLe_zero (x : PFloat) (h : pGt x 0 = true) : pLe x 0 = false := by
  cases x with
  | none => simp [pGt] at h
  | some v =>
    simp [pGt] at h
    simp [pLe]
    linarith

/-- C5 counterexample: at period 1 no position is held and the best-pair
spread is positive, yet the simulator does not open — the opening rule
is unreachable before `consecutive_periods` periods of history exist
(here `consecutive_periods = 2 > 1`). -/
theorem c5_counterexample :
    ((backtest exParams c5Rows).getD 0 dfltSimRow).currentSupplyAsset =
        PyAsset.nan ∧
      ((backtest exParams c5Rows).getD 0 dfltSimRow).currentBorrowAsset =
        PyAsset.nan ∧
      pGt (((bestPairsSorted c5Rows).getD 1 dfltBP).2).spread 0 = true ∧
      ((backtest exParams c5Rows).getD 1 dfltSimRow).currentSupplyAsset =
        PyAsset.nan ∧
      ((backtest exParams c5Rows).getD 1 dfltSimRow).currentBorrowAsset =
        PyAsset.nan ∧
      ((backtest exParams c5Rows).getD 1 dfltSimRow).rebalanceStatus =
        "no_rebalance" := by
  refine ⟨by decide, by decide, by decide, by decide, by decide, by decide⟩

/-- C5 (amended): from a no-position state the simulator opens a
leveraged position at the current best pair only at periods
`i ≥ consecutive_periods` (when every period of the lookback window has
positive best-pair spread); at periods `0 < i < consecutive_periods` it
never opens, holding the empty position unchanged. -/
theorem c5_open_rule (p : Params) (rows : List DataRow) (i : ℕ)
    (h1 : 1 ≤ i) (hi : i < rows.length)
    (hsup : emptyLeg (((backtest p rows).getD (i - 1) dfltSimRow).currentSupplyAsset))
    (hbor : emptyLeg (((backtest p rows).getD (i - 1) dfltSimRow).currentBorrowAsset)) :
    (p.consecutive_periods ≤ i → 1 ≤ p.consecutive_periods →
      (∀ j ∈ List.range' (i + 1 - p.consecutive_periods) p.consecutive_periods,
        pGt (((bestPairsSorted rows).getD j dfltBP).2).spread 0 = true) →
      ∃ a b, (((bestPairsSorted rows).getD i dfltBP).2).bestSupply = some a ∧
        (((bestPairsSorted rows).getD i dfltBP).2).bestBorrow = some b ∧
        ((backtest p rows).getD i dfltSimRow).currentSupplyAsset = PyAsset.asset a ∧
        ((backtest p rows).getD i dfltSimRow).currentBorrowAsset = PyAsset.asset b ∧
        ((backtest p rows).getD i dfltSimRow).rebalanceStatus =
          "rebalanced_best_pair") ∧
    (i < p.consecutive_periods →
      ((backtest p rows).getD i dfltSimRow).currentSupplyAsset =
        ((backtest p rows).getD (i - 1) dfltSimRow).currentSupplyAsset ∧
      ((backtest p rows).getD i dfltSimRow).currentBorrowAsset =
        ((backtest p rows).getD (i - 1) dfltSimRow).currentBorrowAsset ∧
      ((backtest p rows).getD i dfltSimRow).rebalanceStatus = "no_rebalance") := by
  obtain ⟨k, rfl⟩ : ∃ k, i = k + 1 := ⟨i - 1, by omega⟩
  simp only [Nat.add_sub_cancel] at hsup hbor ⊢
  rw [backtest_getD p rows (k + 1) hi]
  rw [backtest_getD p rows k (by omega)] at hsup hbor ⊢
  obtain ⟨hnan, _⟩ := simInv_states p rows k
  have hbreaker : ((simStates p rows k).row.currentSupplyAsset.isNotNone &&
      pLt (rateBlock (rows.getD (k + 1) ⟨0, []⟩).rates
        (simStates p rows k).row.currentSupplyAsset
        (simStates p rows k).row.currentBorrowAsset
        (simStates p rows k).localSpread).2.2.2 (-10)) = false := by
    rcases hsup with hs0 | hs0
    · rw [hs0]
      rfl
    · rw [hs0, rateBlock_other _ _ _ _ (by rfl), hnan hs0]
      decide
  constructor
  · intro hcp hcp1 hwin
    have hmem : (k + 1) ∈ List.range' (k + 1 + 1 - p.consecutive_periods)
        p.consecutive_periods := by
      rw [List.mem_range'_1]
      omega
    have hanyf : (List.range' (k + 1 + 1 - p.consecutive_periods)
        p.consecutive_periods).any
        (fun j => pLe (((bestPairsSorted rows).getD j dfltBP).2).spread 0) = false := by
      rw [List.any_eq_false]
      intro j hj
      rw [pGt_zero_pLe_zero _ (hwin j hj)]
      simp
    have hdelf : ((List.range' (k + 1 + 1 - p.consecutive_periods)
        p.consecutive_periods).any
        (fun j => pLe (((bestPairsSorted rows).getD j dfltBP).2).spread 0) &&
        ((simStates p rows k).row.currentBorrowAsset).isNotNone) = false := by
      rw [hanyf]
      rfl
    have hmatchf : (List.range' (k + 1 + 1 - p.consecutive_periods)
        p.consecutive_periods).any
        (fun j => pyEqOpt (((bestPairsSorted rows).getD j dfltBP).2).bestSupply
            (simStates p rows k).row.currentSupplyAsset &&
          pyEqOpt (((bestPairsSorted rows).getD j dfltBP).2).bestBorrow
            (simStates p rows k).row.currentBorrowAsset) = false := by
      rw [List.any_eq_false]
      intro j hj
      obtain ⟨a, b, v, hps⟩ := bps_getD_pos_spread rows j (hwin j hj)
      rw [hps]
      rcases hsup with hs0 | hs0 <;> rw [hs0] <;> simp [pyEqOpt]
    have hswt : ((!(List.range' (k + 1 + 1 - p.consecutive_periods)
        p.consecutive_periods).any
        (fun j => pyEqOpt (((bestPairsSorted rows).getD j dfltBP).2).bestSupply
            (simStates p rows k).row.currentSupplyAsset &&
          pyEqOpt (((bestPairsSorted rows).getD j dfltBP).2).bestBorrow
            (simStates p rows k).row.currentBorrowAsset)) &&
        pGt (((bestPairsSorted rows).getD (k + 1) dfltBP).2).spread 0) = true := by
      rw [hmatchf, hwin (k + 1) hmem]
      rfl
    have hd := decidePhase_switch p (bestPairsSorted rows) (k + 1)
      (simStates p rows k).row.currentSupplyAsset
      (simStates p rows k).row.currentBorrowAsset
      (rateBlock (rows.getD (k + 1) ⟨0, []⟩).rates
        (simStates p rows k).row.currentSupplyAsset
        (simStates p rows k).row.currentBorrowAsset
        (simStates p rows k).localSpread).2.2.2
      hbreaker hcp hdelf hswt
    obtain ⟨a, b, v, hps⟩ := bps_getD_pos_spread rows (k + 1) (hwin (k + 1) hmem)
    refine ⟨a, b, by rw [hps], by rw [hps], ?_, ?_, ?_⟩
    · rw [simStates_succ, simStep_eq]
      dsimp only
      rw [finishStep_currentSupplyAsset, hd, hps]
      rfl
    · rw [simStates_succ, simStep_eq]
      dsimp only
      rw [finishStep_currentBorrowAsset, hd, hps]
      rfl
    · rw [simStates_succ, simStep_eq]
      dsimp only
      rw [finishStep_rebalanceStatus, hd]
      rfl
  · intro hlt
    have hd := decidePhase_hold_early p (bestPairsSorted rows) (k + 1)
      (simStates p rows k).row.currentSupplyAsset
      (simStates p rows k).row.currentBorrowAsset
      (rateBlock (rows.getD (k + 1) ⟨0, []⟩).rates
        (simStates p rows k).row.currentSupplyAsset
        (simStates p rows k).row.currentBorrowAsset
        (simStates p rows k).localSpread).2.2.2
      hbreaker (by omega)
    refine ⟨?_, ?_, ?_⟩
    · rw [simStates_succ, simStep_eq]
      dsimp only
      rw [finishStep_currentSupplyAsset, hd]
      rfl
    · rw [simStates_succ, simStep_eq]
      dsimp only
      rw [finishStep_currentBorrowAsset, hd]
      rfl
    · rw [simStates_succ, simStep_eq]
      dsimp only
      rw [finishStep_rebalanceStatus, hd]
      rfl

/-- Witness for `c5_open_rule` at a concrete run: the open part fires at
period 2 and the hold part is checked at period 1. -/
theorem c5_open_rule_witness :
    (∃ a b, (((bestPairsSorted c5OpenRows).getD 2 dfltBP).2).bestSupply = some a ∧
      (((bestPairsSorted c5OpenRows).getD 2 dfltBP).2).bestBorrow = some b ∧
      ((backtest exParams c5OpenRows).getD 2 dfltSimRow).currentSupplyAsset =
        PyAsset.asset a ∧
      ((backtest exParams c5OpenRows).getD 2 dfltSimRow).currentBorrowAsset =
        PyAsset.asset b ∧
      ((backtest exParams c5OpenRows).getD 2 dfltSimRow).rebalanceStatus =
        "rebalanced_best_pair") ∧
    (((backtest exParams c5OpenRows).getD 1 dfltSimRow).currentSupplyAsset =
        ((backtest exParams c5OpenRows).getD 0 dfltSimRow).currentSupplyAsset ∧
      ((backtest exParams c5OpenRows).getD 1 dfltSimRow).currentBorrowAsset =
        ((backtest exParams c5OpenRows).getD 0 dfltSimRow).currentBorrowAsset ∧
      ((backtest exParams c5OpenRows).getD 1 dfltSimRow).rebalanceStatus =
        "no_rebalance") := by
  constructor
  · exact (c5_open_rule exParams c5OpenRows 2 (by decide) (by decide)
      (Or.inr (by decide)) (Or.inr (by decide))).1 (by decide) (by decide)
      (by decide)
  · exact (c5_open_rule exParams c5OpenRows 1 (by decide) (by decide)
      (Or.inr (by decide)) (Or.inr (by decide))).2 (by decide)

/-- Every output row carries the timestamp of the sorted table at its
index. -/
theorem simStates_timestamp (p : Params) (rows : List DataRow) (i : ℕ) :
    (simStates p rows i).row.timestamp = ((bestPairsSorted rows).getD i dfltBP).1 := by
  cases i with
  | zero =>
    show (initRow p (bestPairsSorted rows)).timestamp = _
    unfold initRow
    dsimp only
    split_ifs <;> rfl
  | succ k =>
    rw [simStates_succ, simStep_eq]
    exact finishStep_timestamp p (simStates p rows k).row _ _ _ _ _ _

/-- The sorted best-pair table has one entry per input period. -/
theorem bestPairsSorted_length (rows : List DataRow) :
    (bestPairsSorted rows).length = rows.length := by
  unfold bestPairsSorted
  rw [List.length_insertionSort, List.length_map]

/-- C6 counterexample: on a series whose timestamps strictly decrease,
the backtest raises no error — it returns one row per period, computed
from the re-sorted copy of the series (output timestamps `[3, 5]`). -/
theorem c6_counterexample :
    ¬ List.Pairwise (fun a b => a < b) (c6Rows.map (fun r => r.timestamp)) ∧
      (backtest exParams c6Rows).length = 2 ∧
      (backtest exParams c6Rows).map (fun r => r.timestamp) = [3, 5] := by
  refine ⟨by decide, by decide, by decide⟩

/-- C6 (amended): on every input series — non-monotonic ones included —
the backtest sorts the series by timestamp and simulates the sorted
copy: it produces one row per period, the output timestamps are sorted,
and they are a permutation of the input timestamps.  No input
validation error is raised and the input order is not preserved. -/
theorem c6_sorts_input (p : Params) (rows : List DataRow) :
    (backtest p rows).length = rows.length ∧
      (backtest p rows).map (fun r => r.timestamp) =
        (bestPairsSorted rows).map (fun x => x.1) ∧
      List.Sorted (fun a b => a ≤ b)
        ((backtest p rows).map (fun r => r.timestamp)) ∧
      ((backtest p rows).map (fun r => r.timestamp)).Perm
        (rows.map (fun r => r.timestamp)) := by
  have hmap : (backtest p rows).map (fun r => r.timestamp) =
      (bestPairsSorted rows).map (fun x => x.1) := by
    unfold backtest
    rw [List.map_map]
    have h1 : (List.range rows.length).map
        ((fun r => r.timestamp) ∘ (fun i => (simStates p rows i).row)) =
        (List.range rows.length).map
          (fun i => ((bestPairsSorted rows).getD i dfltBP).1) :=
      List.map_congr_left (fun i _ => simStates_timestamp p rows i)
    rw [h1, ← bestPairsSorted_length rows]
    conv_rhs => rw [← range_map_getD (bestPairsSorted rows) dfltBP]
    rw [List.map_map]
    rfl
  refine ⟨backtest_length p rows, hmap, ?_, ?_⟩
  · rw [hmap]
    have hs : List.Sorted (fun a b : ℤ × BestPair => a.1 ≤ b.1)
        (bestPairsSorted rows) := List.sorted_insertionSort _ _
    exact List.Pairwise.map _ (fun a b hab => hab) hs
  · rw [hmap]
    have hperm : (bestPairsSorted rows).Perm
        (rows.map (fun r => (r.timestamp, bestPairCalc r.rates))) :=
      List.perm_insertionSort _ _
    have := hperm.map (fun x : ℤ × BestPair => x.1)
    rw [List.map_map] at this
    exact this

/-! ## Claim C8 -/

/-- The per-period swap counter is never negative (the only fractional
value is `1/leverage`). -/
theorem finishStep_swapCount_nonneg (p : Params) (prev : SimRow) (hd : ℚ) (ts : ℤ)
    (a b c : PFloat) (d : Decision) (hlev : 0 < p.leverage) :
    0 ≤ (finishStep p prev hd ts a b c d).swapCount := by
  unfold finishStep
  dsimp only
  split_ifs <;> first
    | (rw [qDiv_eq]; positivity)
    | norm_num

/-- The cumulative cost column either carries forward or adds a
non-negative transaction cost and a swap cost that is `NaN` or zero
(the swap fee is zero). -/
theorem finishStep_totalCostsUsd_shape (p : Params) (prev : SimRow) (hd : ℚ) (ts : ℤ)
    (a b c : PFloat) (d : Decision) :
    (finishStep p prev hd ts a b c d).totalCostsUsd = prev.totalCostsUsd ∨
    ∃ t s, (finishStep p prev hd ts a b c d).totalCostsUsd =
        pAdd (pAdd (some t) s) prev.totalCostsUsd ∧ 0 ≤ t ∧
        (s = Option.none ∨ s = some 0) := by
  have hfee : ∀ v t2 : ℚ, qMul v (qMul SWAP_FEE_PERCENTAGE t2) = 0 := by
    intro v t2
    rw [qMul_eq, qMul_eq]
    simp [SWAP_FEE_PERCENTAGE]
  have htc : ∀ n : ℕ, (0 : ℚ) ≤ qMul (n : ℚ) TRANSACTION_COST_USD := by
    intro n
    rw [qMul_eq]
    unfold TRANSACTION_COST_USD
    rw [Rat.mkRat_eq_div]
    positivity
  cases hn : d.need with
  | false =>
    left
    unfold finishStep
    dsimp only
    rw [hn]
    simp
  | true =>
    right
    unfold finishStep
    dsimp only
    rw [hn]
    simp only [eq_self_iff_true, if_true]
    refine ⟨_, _, rfl, htc _, ?_⟩
    have hps : ∀ (amt : PFloat) (t2 : ℚ),
        pScale amt (qMul SWAP_FEE_PERCENTAGE t2) = Option.none ∨
        pScale amt (qMul SWAP_FEE_PERCENTAGE t2) = some 0 := by
      intro amt t2
      cases amt with
      | none => exact Or.inl rfl
      | some v =>
        right
        simp [pScale, hfee]
    split_ifs <;> first | exact hps _ _ | exact Or.inr rfl

/-- One cumulative-cost step never decreases the real cost value. -/
theorem finishStep_totalCosts_le (p : Params) (prev : SimRow) (hd : ℚ) (ts : ℤ)
    (a b c : PFloat) (d : Decision) (x y : ℚ)
    (hx : prev.totalCostsUsd = some x)
    (hy : (finishStep p prev hd ts a b c d).totalCostsUsd = some y) : x ≤ y := by
  rcases finishStep_totalCostsUsd_shape p prev hd ts a b c d with hsh | ⟨t, s, hsh, ht, hs⟩
  · rw [hsh, hx] at hy
    injection hy with hy2
    rw [hy2]
  · rw [hsh, hx] at hy
    rcases hs with hs0 | hs0 <;> rw [hs0] at hy
    · simp [pAdd] at hy
    · simp only [pAdd] at hy
      injection hy with hy2
      rw [← hy2, qAdd_eq, qAdd_eq]
      linarith

/-- C8: throughout the output of one backtest run, on any input series,
the cumulative transaction counter, the cumulative swap counter and the
cumulative cost are monotonically non-decreasing in the row index
(the cost compared whenever both cells hold real numbers — `NaN` cells
are incomparable, as in the float semantics), and every row satisfies
`position_value_after_costs = position_value - total_costs_usd`. -/
theorem c8_cumulative_monotone (p : Params) (rows : List DataRow)
    (hlev : 0 < p.leverage) :
    (∀ i, i + 1 < rows.length →
      ((backtest p rows).getD i dfltSimRow).totalTransactions ≤
        ((backtest p rows).getD (i + 1) dfltSimRow).totalTransactions ∧
      ((backtest p rows).getD i dfltSimRow).totalSwaps ≤
        ((backtest p rows).getD (i + 1) dfltSimRow).totalSwaps ∧
      (∀ x y, ((backtest p rows).getD i dfltSimRow).totalCostsUsd = some x →
        ((backtest p rows).getD (i + 1) dfltSimRow).totalCostsUsd = some y →
        x ≤ y)) ∧
    (∀ i, i < rows.length →
      ((backtest p rows).getD i dfltSimRow).positionValueAfterCosts =
        pSub ((backtest p rows).getD i dfltSimRow).positionValue
          ((backtest p rows).getD i dfltSimRow).totalCostsUsd) := by
  constructor
  · intro i hi
    rw [backtest_getD p rows i (by omega), backtest_getD p rows (i + 1) hi,
      simStates_succ, simStep_eq]
    dsimp only
    refine ⟨?_, ?_, ?_⟩
    · rw [finishStep_totalTransactions]
      exact Nat.le_add_right _ _
    · rw [finishStep_totalSwaps, qAdd_eq]
      have := finishStep_swapCount_nonneg p (simStates p rows i).row
        (qDiv ((((bestPairsSorted rows).getD (i + 1) dfltBP).1 -
          ((bestPairsSorted rows).getD (i + 1 - 1) dfltBP).1 : ℤ) : ℚ) 3600)
        ((bestPairsSorted rows).getD (i + 1) dfltBP).1
        (rateBlock (rows.getD (i + 1) ⟨0, []⟩).rates
          (simStates p rows i).row.currentSupplyAsset
          (simStates p rows i).row.currentBorrowAsset
          (simStates p rows i).localSpread).1
        (rateBlock (rows.getD (i + 1) ⟨0, []⟩).rates
          (simStates p rows i).row.currentSupplyAsset
          (simStates p rows i).row.currentBorrowAsset
          (simStates p rows i).localSpread).2.1
        (rateBlock (rows.getD (i + 1) ⟨0, []⟩).rates
          (simStates p rows i).row.currentSupplyAsset
          (simStates p rows i).row.currentBorrowAsset
          (simStates p rows i).localSpread).2.2.1
        (decidePhase p (bestPairsSorted rows) (i + 1)
          (simStates p rows i).row.currentSupplyAsset
          (simStates p rows i).row.currentBorrowAsset
          (rateBlock (rows.getD (i + 1) ⟨0, []⟩).rates
            (simStates p rows i).row.currentSupplyAsset
            (simStates p rows i).row.currentBorrowAsset
            (simStates p rows i).localSpread).2.2.2) hlev
      linarith
    · intro x y hx hy
      exact finishStep_totalCosts_le p (simStates p rows i).row _ _ _ _ _ _ x y hx hy
  · intro i hi
    rw [backtest_getD p rows i hi]
    cases i with
    | zero =>
      show (initRow p (bestPairsSorted rows)).positionValueAfterCosts =
        pSub (initRow p (bestPairsSorted rows)).positionValue
          (initRow p (bestPairsSorted rows)).totalCostsUsd
      unfold initRow
      dsimp only
      split_ifs
      · simp only [pSub, qSub_eq, qAdd_eq, sub_sub]
      · simp only [pSub, qSub_eq, sub_zero]
    | succ k =>
      rw [simStates_succ, simStep_eq]
      exact finishStep_positionValueAfterCosts p (simStates p rows k).row _ _ _ _ _ _

/-- Witness for `c8_cumulative_monotone` on a concrete four-period run. -/
theorem c8_cumulative_monotone_witness :
    ((backtest exParams c10Rows).getD 0 dfltSimRow).totalTransactions ≤
      ((backtest exParams c10Rows).getD 1 dfltSimRow).totalTransactions ∧
    ((backtest exParams c10Rows).getD 2 dfltSimRow).positionValueAfterCosts =
      pSub ((backtest exParams c10Rows).getD 2 dfltSimRow).positionValue
        ((backtest exParams c10Rows).getD 2 dfltSimRow).totalCostsUsd := by
  have h := c8_cumulative_monotone exParams c10Rows (by decide)
  exact ⟨(h.1 0 (by decide)).1, h.2 2 (by decide)⟩
